import Mathlib

/-!
# monitor_devices (libhs example): a shallow embedding

The file embeds `src/libhs/examples/monitor_devices/monitor_devices.c`:

* `main`, the dispatch loop.  The libhs calls (`hs_monitor_new`, `hs_monitor_start`,
  `hs_monitor_list`, `hs_monitor_get_descriptor`, `hs_monitor_refresh`, `hs_poll`,
  `hs_monitor_free`) are external, so every value they hand back is read from an
  environment `Env`; the run of `main` is the list of calls it makes, in order,
  together with the value of `r` that reaches `return -r`; `exitStatus` is what the caller
  of the process then observes.
* `device_callback`, the formatter, with a small `printf` that interprets the
  conversions its format strings use.
-/

namespace MonitorDevices

/-! ## C `int` -/

/-- Smallest value of a 32-bit `int`. -/
def INT_MIN : Int := -2147483648

/-- Largest value of a 32-bit `int`. -/
def INT_MAX : Int := 2147483647

/-- Reduction of an integer to the 32-bit two's complement range. -/
def wrapInt (x : Int) : Int := (x + 2147483648) % 4294967296 - 2147483648

/-- The C expression `-r` on a 32-bit `int`: exact except at `INT_MIN`, whose negation does
not fit an `int` (the two's complement result is `INT_MIN` again). -/
def negInt (r : Int) : Int := wrapInt (-r)

/-! ## The environment of `main` -/

/-- What one `hs_poll(sources, 2, -1)` call leaves behind: its return value and the `ready`
fields of `sources[0]` and `sources[1]` as they stand when the call returns. -/
structure PollResult where
  ret : Int
  ready0 : Bool
  ready1 : Bool
deriving DecidableEq, Repr

/-- Everything the outside world decides during a run of `main`. `refresh_ret i` and
`poll i` are the results of the calls made in the `i`-th pass of the `do ... while` loop. -/
structure Env where
  /-- Whether the program was built with `_WIN32` defined. -/
  win32 : Bool
  /-- Return value of `hs_monitor_new(NULL, 0, &monitor)`. -/
  new_ret : Int
  /-- Value of `monitor` after `hs_monitor_new` returned (`none` is `NULL`). -/
  new_monitor : Option Nat
  /-- Return value of `hs_monitor_start(monitor)`. -/
  start_ret : Int
  /-- Return value of `hs_monitor_list(monitor, device_callback, NULL)`. -/
  list_ret : Int
  /-- Value of `hs_monitor_get_descriptor(monitor)`. -/
  descriptor : Int
  /-- Value of `STDIN_FILENO`, or of `GetStdHandle(STD_INPUT_HANDLE)` under `_WIN32`. -/
  stdin_desc : Int
  /-- Return value of `hs_monitor_refresh(monitor, device_callback, NULL)` in pass `i`. -/
  refresh_ret : Nat → Int
  /-- Outcome of `hs_poll(sources, 2, -1)` in pass `i`. -/
  poll : Nat → PollResult

/-- One call made by `main`, with its arguments and what it returned. -/
inductive Event where
  | hs_monitor_new (ret : Int)
  | hs_monitor_start (monitor : Option Nat) (ret : Int)
  | hs_monitor_list (monitor : Option Nat) (ret : Int)
  | hs_monitor_get_descriptor (monitor : Option Nat) (desc : Int)
  | printf (text : String)
  | hs_monitor_refresh (monitor : Option Nat) (ret : Int)
  | hs_poll (descs : List Int) (count : Nat) (timeout : Int) (res : PollResult)
  | tcflush
  | hs_monitor_free (monitor : Option Nat)
deriving DecidableEq, Repr

/-- A run of `main` observed for a bounded number of loop passes: the calls made so far and
the value of `r` at `return -r` (`none` while the loop is still going). -/
structure Run where
  events : List Event
  r : Option Int
deriving DecidableEq, Repr

/-- The value `main` returns, `-r`; `none` while the loop is still going. -/
def Run.status (run : Run) : Option Int := run.r.map negInt

/-- Put one call in front of the rest of a run. -/
def Run.after (e : Event) (run : Run) : Run := ⟨e :: run.events, run.r⟩

/-- The `cleanup:` label: `hs_monitor_free(monitor); return -r;`. -/
def cleanup (monitor : Option Nat) (r : Int) : Run :=
  ⟨[Event.hs_monitor_free monitor], some r⟩

/-- The statements after the loop: `if (sources[1].ready) { tcflush(...); r = 0; }` (the
`tcflush` only without `_WIN32`), then `cleanup`. -/
def afterLoop (env : Env) (monitor : Option Nat) (p : PollResult) : Run :=
  if p.ready1 then
    if env.win32 then cleanup monitor 0
    else Run.after Event.tcflush (cleanup monitor 0)
  else cleanup monitor p.ret

/-- The `do { ... } while (r > 0 && !sources[1].ready);` loop of `main`, from pass `i` on,
for at most `fuel` passes. -/
def loop (env : Env) (monitor : Option Nat) : Nat → Nat → Run
  | 0, _ => ⟨[], none⟩
  | fuel + 1, i =>
    let r := env.refresh_ret i
    Run.after (Event.hs_monitor_refresh monitor r) <|
      if r < 0 then cleanup monitor r
      else
        let p := env.poll i
        Run.after (Event.hs_poll [env.descriptor, env.stdin_desc] 2 (-1) p) <|
          if p.ret > 0 && !p.ready1 then loop env monitor fuel (i + 1)
          else afterLoop env monitor p

/-- The banner `main` prints before entering the loop. -/
def banner : String := "Monitoring devices (press RETURN to end):\n"

/-- The function `main`, observed for at most `fuel` passes of its loop. -/
def main (env : Env) (fuel : Nat) : Run :=
  let monitor := env.new_monitor
  Run.after (Event.hs_monitor_new env.new_ret) <|
    if env.new_ret < 0 then cleanup monitor env.new_ret
    else
      Run.after (Event.hs_monitor_start monitor env.start_ret) <|
        if env.start_ret < 0 then cleanup monitor env.start_ret
        else
          Run.after (Event.hs_monitor_list monitor env.list_ret) <|
            if env.list_ret < 0 then cleanup monitor env.list_ret
            else
              Run.after (Event.hs_monitor_get_descriptor monitor env.descriptor) <|
                Run.after (Event.printf banner) <|
                  loop env monitor fuel 0

/-- The exit status the caller of the process observes when `main` returns `v`: without
`_WIN32` (POSIX) only the low 8 bits of `v` reach the caller, as `WEXITSTATUS` reports them;
under `_WIN32` the exit code is the 32-bit value itself. -/
def processExitStatus (win32 : Bool) (v : Int) : Int :=
  if win32 then v else v % 256

/-- The process exit status of a run of `main`; `none` while the loop is still going. -/
def exitStatus (env : Env) (fuel : Nat) : Option Int :=
  (main env fuel).status.map (processExitStatus env.win32)

/-! ## `device_callback` -/

/-- Modelled from the spec: the enumeration `hs_device_status`, declared in the header
`libhs.h` and not in `monitor_devices.c`. The spec names the statuses Online and Disconnected; `other` stands
for any value the `switch` of `device_callback` does not list. -/
inductive hs_device_status where
  | HS_DEVICE_STATUS_ONLINE
  | HS_DEVICE_STATUS_DISCONNECTED
  | other (value : Int)
deriving DecidableEq, Repr

/-- Modelled from the spec: the enumeration `hs_device_type`, declared in the header
`libhs.h` and not in `monitor_devices.c`. The spec names the kinds HID and Serial; `other` stands for any value
the `switch` of `device_callback` does not list. -/
inductive hs_device_type where
  | HS_DEVICE_TYPE_HID
  | HS_DEVICE_TYPE_SERIAL
  | other (value : Int)
deriving DecidableEq, Repr

/-- Modelled from the spec: what the `hs_device_get_*` accessors (declared in the header
`libhs.h` and not in `monitor_devices.c`) give for one device. `interface_number` is a `uint8_t`, `vid` and `pid`
are `uint16_t`; the four optional strings are `none` where the accessor returns `NULL`. -/
structure hs_device where
  status : hs_device_status
  type : hs_device_type
  location : String
  interface_number : Nat
  vid : Nat
  pid : Nat
  path : Option String
  manufacturer_string : Option String
  product_string : Option String
  serial_number_string : Option String
deriving DecidableEq, Repr

/-- An argument handed to `printf` after the format. -/
inductive Arg where
  | str (s : String)
  | uint (n : Nat)
deriving DecidableEq, Repr

/-- One piece of a parsed format string: literal text or one of the conversions used by
`device_callback` (`%s`, `%u`, `%04x`). -/
inductive Directive where
  | lit (c : Char)
  | convS
  | convU
  | conv04x
deriving DecidableEq, Repr

/-- Split a format string into literal characters and conversions. -/
def parseFormat : List Char → List Directive
  | [] => []
  | '%' :: 's' :: rest => Directive.convS :: parseFormat rest
  | '%' :: 'u' :: rest => Directive.convU :: parseFormat rest
  | '%' :: '0' :: '4' :: 'x' :: rest => Directive.conv04x :: parseFormat rest
  | c :: rest => Directive.lit c :: parseFormat rest

/-- Pad a digit string on the left with `'0'` up to `width` characters. -/
def zeroPad (width : Nat) (ds : List Char) : List Char :=
  List.replicate (width - ds.length) '0' ++ ds

/-- Output of the directives of a format on its arguments. The integer conversions take an
`unsigned int`, hence the reduction modulo `2 ^ 32`. -/
def render : List Directive → List Arg → List Char
  | [], _ => []
  | Directive.lit c :: ds, args => c :: render ds args
  | Directive.convS :: ds, Arg.str s :: args => s.data ++ render ds args
  | Directive.convU :: ds, Arg.uint n :: args =>
    Nat.toDigits 10 (n % 4294967296) ++ render ds args
  | Directive.conv04x :: ds, Arg.uint n :: args =>
    zeroPad 4 (Nat.toDigits 16 (n % 4294967296)) ++ render ds args
  | _ :: ds, args => render ds args

/-- The text `printf(format, args...)` writes, for the conversions above. -/
def printf (format : String) (args : List Arg) : String :=
  String.mk (render (parseFormat format.data) args)

/-- The `<inttypes.h>` macro `PRIu8`, the conversion that prints a `uint8_t` in decimal (its
value in glibc). -/
def PRIu8 : String := "u"

/-- The `<inttypes.h>` macro `PRIx16`, the conversion that prints a `uint16_t` in lowercase
hexadecimal (its value in glibc). -/
def PRIx16 : String := "x"

/-- The macro `PRINT_PROPERTY(name, prop)`: one `printf` when the property is not `NULL`. -/
def PRINT_PROPERTY (name : String) (prop : Option String) : List String :=
  match prop with
  | some value => [printf ("  - " ++ name ++ " %s\n") [Arg.str value]]
  | none => []

/-- The function `device_callback`: the texts of its `printf` calls, in order, and its return
value. -/
def device_callback (dev : hs_device) : List String × Int :=
  let event :=
    match dev.status with
    | hs_device_status.HS_DEVICE_STATUS_DISCONNECTED => "remove"
    | hs_device_status.HS_DEVICE_STATUS_ONLINE => "add"
    | _ => "?"
  let type :=
    match dev.type with
    | hs_device_type.HS_DEVICE_TYPE_HID => "hid"
    | hs_device_type.HS_DEVICE_TYPE_SERIAL => "serial"
    | _ => "?"
  let header :=
    printf ("%s %s@%" ++ PRIu8 ++ " %04" ++ PRIx16 ++ ":%04" ++ PRIx16 ++ " (%s)\n")
      [Arg.str event, Arg.str dev.location, Arg.uint dev.interface_number,
       Arg.uint dev.vid, Arg.uint dev.pid, Arg.str type]
  (header ::
    (PRINT_PROPERTY "device node:  " dev.path ++
     PRINT_PROPERTY "manufacturer: " dev.manufacturer_string ++
     PRINT_PROPERTY "product:      " dev.product_string ++
     PRINT_PROPERTY "serial number:" dev.serial_number_string), 0)

/-- The attached HID device of the end-to-end scenario. -/
def exampleDevice : hs_device :=
  { status := hs_device_status.HS_DEVICE_STATUS_ONLINE
    type := hs_device_type.HS_DEVICE_TYPE_HID
    location := "1-1"
    interface_number := 0
    vid := 0x1234
    pid := 0x5678
    path := none
    manufacturer_string := none
    product_string := none
    serial_number_string := none }

/-- The device of the end-to-end scenario after its detach. -/
def exampleDeviceRemoved : hs_device :=
  { exampleDevice with status := hs_device_status.HS_DEVICE_STATUS_DISCONNECTED }

/-- A serial device of unknown status that exposes a node path and a product string. -/
def exampleSerial : hs_device :=
  { exampleDevice with
    status := hs_device_status.other 7
    type := hs_device_type.HS_DEVICE_TYPE_SERIAL
    interface_number := 12
    vid := 0xab
    path := some "/dev/ttyACM0"
    product_string := some "100% serial" }

/-- The device of the end-to-end scenario with a manufacturer string of two lines. -/
def exampleTwoLines : hs_device :=
  { exampleDevice with manufacturer_string := some "Acme\nCorp" }

/-! ## Observers used to state the properties -/

/-- The lowercase hexadecimal digit of a value below 16. -/
def hexDigit (d : Nat) : Char := "0123456789abcdef".data.getD d '?'

/-- What the spec calls lowercase hexadecimal zero-padded to 4 digits: the digits of the
value at positions `16^3`, `16^2`, `16` and `1`, most significant first. -/
def specHex4 (v : Nat) : String :=
  String.mk [hexDigit (v / 4096 % 16), hexDigit (v / 256 % 16), hexDigit (v / 16 % 16),
    hexDigit (v % 16)]

/-- What the spec calls a detail line: the label and, when the property is present, its
value, on a line of its own. -/
def specDetail (label : String) (prop : Option String) : List String :=
  match prop with
  | some value => ["  - " ++ label ++ " " ++ value ++ "\n"]
  | none => []

/-- How many of the four optional properties of a device are present. -/
def presentCount (dev : hs_device) : Nat :=
  (if dev.path.isSome then 1 else 0) + (if dev.manufacturer_string.isSome then 1 else 0) +
    (if dev.product_string.isSome then 1 else 0) +
    (if dev.serial_number_string.isSome then 1 else 0)

/-- Whether the call is `hs_monitor_refresh`. -/
def Event.isRefresh : Event → Bool
  | Event.hs_monitor_refresh _ _ => true
  | _ => false

/-- Whether the call is `hs_poll`. -/
def Event.isPoll : Event → Bool
  | Event.hs_poll _ _ _ _ => true
  | _ => false

/-- Whether the call is `hs_monitor_free`. -/
def Event.isFree : Event → Bool
  | Event.hs_monitor_free _ => true
  | _ => false

/-- The return code of a call to `hs_monitor_new`, `hs_monitor_start`, `hs_monitor_list` or
`hs_monitor_refresh`; `none` for every other call. -/
def Event.monitorRet : Event → Option Int
  | Event.hs_monitor_new r => some r
  | Event.hs_monitor_start _ r => some r
  | Event.hs_monitor_list _ r => some r
  | Event.hs_monitor_refresh _ r => some r
  | _ => none

/-- The outcome of an `hs_poll` call; `none` for every other call. -/
def Event.pollResult : Event → Option PollResult
  | Event.hs_poll _ _ _ p => some p
  | _ => none

/-- The code a library call returned: the return value of `hs_monitor_new`,
`hs_monitor_start`, `hs_monitor_list`, `hs_monitor_refresh` or `hs_poll`. -/
def Event.retCode : Event → Option Int
  | Event.hs_poll _ _ _ p => some p.ret
  | e => e.monitorRet

/-- Whether every code returned by a library call of the run is an `int` other than
`INT_MIN`. -/
def Run.codesAboveMin (X : Run) : Bool :=
  X.events.all fun e =>
    match e.retCode with
    | some c => decide (INT_MIN < c)
    | none => true

/-- Whether every negative code returned by a library call of the run stays visible in the
process exit status: always under `_WIN32`; otherwise when it is not a multiple of 256. -/
def Run.codesVisible (X : Run) (win32 : Bool) : Bool :=
  X.events.all fun e =>
    match e.retCode with
    | some c => win32 || decide (0 ≤ c) || decide (c % 256 ≠ 0)
    | none => true

/-- The number of newline characters in a text. -/
def newlines (s : String) : Nat := s.data.count '\n'

/-- The number of newline characters in an optional string, `0` when it is absent. -/
def newlinesIn (prop : Option String) : Nat :=
  match prop with
  | some value => newlines value
  | none => 0

/-- The number of lines a sequence of `printf` texts puts on the output: the number of
newline characters written. -/
def linesPrinted (texts : List String) : Nat := (texts.map newlines).sum

/-- The number of `ready` fields set among the two sources handed to `hs_poll`. -/
def PollResult.readyCount (p : PollResult) : Int :=
  (if p.ready0 then 1 else 0) + (if p.ready1 then 1 else 0)

/-! ## Invariants of a run -/

/-- Two observations `X`, `Y` of a run, `Y` the longer one: every `hs_poll` of `X` that
satisfies the loop condition is followed in `Y` by an `hs_monitor_refresh`. -/
def NextOk (env : Env) (m : Option Nat) (X Y : Run) : Prop :=
  ∀ (pre post : List Event) (d : List Int) (c : Nat) (t : Int) (p : PollResult),
    X.events = pre ++ Event.hs_poll d c t p :: post → (0 < p.ret ∧ p.ready1 = false) →
      ∃ (k : Nat) (rest : List Event),
        Y.events = pre ++ Event.hs_poll d c t p ::
          Event.hs_monitor_refresh m (env.refresh_ret k) :: rest

/-- A run in which every `hs_monitor_refresh` that returns a non-negative value is followed
at once by `hs_poll` on the two sources with timeout `-1`. -/
def RefreshOk (env : Env) (X : Run) : Prop :=
  ∀ (pre post : List Event) (m : Option Nat) (r : Int),
    X.events = pre ++ Event.hs_monitor_refresh m r :: post → 0 ≤ r →
      ∃ (p : PollResult) (rest : List Event),
        post = Event.hs_poll [env.descriptor, env.stdin_desc] 2 (-1) p :: rest

/-- Environments that differ at most in the non-negative values returned by
`hs_monitor_list` and `hs_monitor_refresh`. -/
def SameUpToAborts (env env' : Env) : Prop :=
  env'.win32 = env.win32 ∧ env'.new_ret = env.new_ret ∧ env'.new_monitor = env.new_monitor ∧
    env'.start_ret = env.start_ret ∧ env'.descriptor = env.descriptor ∧
    env'.stdin_desc = env.stdin_desc ∧ env'.poll = env.poll ∧
    (env'.list_ret = env.list_ret ∨ (0 ≤ env.list_ret ∧ 0 ≤ env'.list_ret)) ∧
    ∀ i, env'.refresh_ret i = env.refresh_ret i ∨
      (0 ≤ env.refresh_ret i ∧ 0 ≤ env'.refresh_ret i)


/-- A run in which every negative return of a monitor call is followed by
`hs_monitor_free` alone and is the value of `r` at the `return`. -/
def FaultOk (m : Option Nat) (X : Run) : Prop :=
  ∀ (pre post : List Event) (e : Event) (r : Int),
    X.events = pre ++ e :: post → e.monitorRet = some r → r < 0 →
      post = [Event.hs_monitor_free m] ∧ X.r = some r

/-- A run in which every `hs_poll` that does not satisfy the loop condition
`r > 0 && !sources[1].ready` is followed by the statements after the loop and nothing else. -/
def PollOk (env : Env) (m : Option Nat) (X : Run) : Prop :=
  ∀ (pre post : List Event) (d : List Int) (c : Nat) (t : Int) (p : PollResult),
    X.events = pre ++ Event.hs_poll d c t p :: post → ¬ (0 < p.ret ∧ p.ready1 = false) →
      post = (afterLoop env m p).events ∧ X.r = (afterLoop env m p).r

/-- A run that either is still in the loop and has not called `hs_monitor_free`, or has
returned and called `hs_monitor_free` once, as its last call. -/
def FreeOk (m : Option Nat) (X : Run) : Prop :=
  (X.r = none ∧ ∀ e ∈ X.events, e.isFree = false) ∨
    (X.r ≠ none ∧ ∃ init : List Event,
      X.events = init ++ [Event.hs_monitor_free m] ∧ ∀ e ∈ init, e.isFree = false)

/-- Whether pass `i` of the loop is one that leaves it: `hs_monitor_refresh` fails, or the
loop condition `r > 0 && !sources[1].ready` is false after `hs_poll`. -/
def Env.stopsAt (env : Env) (i : Nat) : Bool :=
  decide (env.refresh_ret i < 0) || !((env.poll i).ret > 0 && !(env.poll i).ready1)

/-- The calls of `n` complete passes of the loop starting at pass `i`: a refresh, then a
wait, `n` times. -/
def passes (env : Env) (m : Option Nat) : Nat → Nat → List Event
  | 0, _ => []
  | n + 1, i =>
    Event.hs_monitor_refresh m (env.refresh_ret i) ::
      Event.hs_poll [env.descriptor, env.stdin_desc] 2 (-1) (env.poll i) ::
        passes env m n (i + 1)

/-- A run in which every `hs_poll` is made on the two sources (the monitor descriptor, then
the console) with timeout `-1`, right after an `hs_monitor_refresh` that did not fail. -/
def PrecOk (env : Env) (X : Run) : Prop :=
  ∀ (pre post : List Event) (d : List Int) (c : Nat) (t : Int) (p : PollResult),
    X.events = pre ++ Event.hs_poll d c t p :: post →
      d = [env.descriptor, env.stdin_desc] ∧ c = 2 ∧ t = -1 ∧
        ∃ (pre' : List Event) (m : Option Nat) (r : Int),
          pre = pre' ++ [Event.hs_monitor_refresh m r] ∧ 0 ≤ r

/-- A run whose final `r`, if it has returned, is at most `0`; is `0` only if some `hs_poll`
returned with `sources[1].ready` set or with value `0`; and is negative only if it is the
negative code of a monitor call, or of an `hs_poll` that left `sources[1].ready` clear. -/
def SignOk (X : Run) : Prop :=
  ∀ x : Int, X.r = some x →
    x ≤ 0 ∧
    (x = 0 → ∃ e ∈ X.events, ∃ p, e.pollResult = some p ∧ (p.ready1 = true ∨ p.ret = 0)) ∧
    (x < 0 → (∃ e ∈ X.events, e.monitorRet = some x) ∨
      (∃ e ∈ X.events, ∃ p, e.pollResult = some p ∧ p.ret = x ∧ p.ready1 = false))

/-! ## Concrete environments -/

/-- An environment in which every call succeeds and only the monitor is ever ready. -/
def quietEnv : Env :=
  { win32 := false
    new_ret := 0
    new_monitor := some 1
    start_ret := 0
    list_ret := 0
    descriptor := 3
    stdin_desc := 0
    refresh_ret := fun _ => 0
    poll := fun _ => ⟨1, true, false⟩ }

/-- `hs_monitor_new` fails with `INT_MIN` and leaves `monitor` at `NULL`. -/
def envNewMin : Env := { quietEnv with new_ret := -2147483648, new_monitor := none }

/-- `hs_monitor_refresh` fails with `-3` in the second pass of the loop. -/
def envRefreshFault : Env :=
  { quietEnv with refresh_ret := fun i => if i = 1 then -3 else 0 }

/-- `hs_poll` fails with `-2` in the first pass and leaves both `ready` fields clear. -/
def envPollFault : Env := { quietEnv with poll := fun _ => ⟨-2, false, false⟩ }

/-- `hs_poll` fails with `-2` in the first pass while `sources[1].ready` is set. -/
def envPollFaultReady : Env := { quietEnv with poll := fun _ => ⟨-2, false, true⟩ }

/-- `hs_poll` fails with `INT_MIN` in the first pass and leaves both `ready` fields clear. -/
def envPollMin : Env := { quietEnv with poll := fun _ => ⟨-2147483648, false, false⟩ }

/-- In the second pass both the monitor and the console are ready. -/
def envKeyPress : Env :=
  { quietEnv with poll := fun i => if i = 1 then ⟨2, true, true⟩ else ⟨1, true, false⟩ }

/-- In the first pass `hs_monitor_refresh` returns the abort value `7`, then the console is
ready. -/
def envAbort : Env :=
  { quietEnv with
    refresh_ret := fun i => if i = 0 then 7 else 0
    poll := fun _ => ⟨1, false, true⟩ }

/-- `hs_monitor_new` fails with `-300` in a build without `_WIN32`. -/
def envNew300 : Env := { quietEnv with new_ret := -300, new_monitor := none }

/-- `hs_monitor_new` fails with `-256` in a build without `_WIN32`. -/
def envNew256 : Env := { quietEnv with new_ret := -256, new_monitor := none }

/-- `hs_monitor_new` fails with `INT_MIN` in a `_WIN32` build. -/
def envNewMinWin : Env := { envNewMin with win32 := true }

/-- `hs_poll` fails with `-512` in the first pass, both `ready` fields clear, in a build
without `_WIN32`. -/
def envPoll512 : Env := { quietEnv with poll := fun _ => ⟨-512, false, false⟩ }

/-- `hs_poll` fails with `INT_MIN` in the first pass, both `ready` fields clear, in a `_WIN32`
build. -/
def envPollMinWin : Env := { envPollMin with win32 := true }

/-- The calls of `main` up to the banner when `hs_monitor_new`, `hs_monitor_start` and
`hs_monitor_list` all return `0` in an environment built on `quietEnv`. -/
def quietSetup : List Event :=
  [Event.hs_monitor_new 0, Event.hs_monitor_start (some 1) 0,
   Event.hs_monitor_list (some 1) 0, Event.hs_monitor_get_descriptor (some 1) 3,
   Event.printf banner]

/-! ## Basic facts about the embedding -/

@[simp] theorem after_events (e : Event) (run : Run) :
    (Run.after e run).events = e :: run.events := rfl

@[simp] theorem after_r (e : Event) (run : Run) : (Run.after e run).r = run.r := rfl

@[simp] theorem cleanup_events (m : Option Nat) (r : Int) :
    (cleanup m r).events = [Event.hs_monitor_free m] := rfl

@[simp] theorem cleanup_r (m : Option Nat) (r : Int) : (cleanup m r).r = some r := rfl

@[simp] theorem loop_zero (env : Env) (m : Option Nat) (i : Nat) :
    loop env m 0 i = ⟨[], none⟩ := rfl

theorem loop_succ (env : Env) (m : Option Nat) (fuel i : Nat) :
    loop env m (fuel + 1) i =
      Run.after (Event.hs_monitor_refresh m (env.refresh_ret i))
        (if env.refresh_ret i < 0 then cleanup m (env.refresh_ret i)
         else Run.after (Event.hs_poll [env.descriptor, env.stdin_desc] 2 (-1) (env.poll i))
           (if (env.poll i).ret > 0 && !(env.poll i).ready1 then loop env m fuel (i + 1)
            else afterLoop env m (env.poll i))) := rfl

theorem negInt_eq (r : Int) (h1 : INT_MIN < r) (h2 : r ≤ 0) : negInt r = -r := by
  unfold negInt wrapInt
  unfold INT_MIN at h1
  omega

/-- The calls after the loop are `tcflush` (without `_WIN32`) and `hs_monitor_free`. -/
theorem afterLoop_events (env : Env) (m : Option Nat) (p : PollResult) :
    (afterLoop env m p).events =
      (if p.ready1 = true ∧ env.win32 = false then [Event.tcflush] else []) ++
        [Event.hs_monitor_free m] := by
  unfold afterLoop
  cases p.ready1 <;> cases env.win32 <;> simp

theorem afterLoop_r (env : Env) (m : Option Nat) (p : PollResult) :
    (afterLoop env m p).r = some (if p.ready1 = true then 0 else p.ret) := by
  unfold afterLoop
  cases p.ready1 <;> cases env.win32 <;> simp

theorem mem_afterLoop (env : Env) (m : Option Nat) (p : PollResult) (e : Event)
    (h : e ∈ (afterLoop env m p).events) : e = Event.tcflush ∨ e = Event.hs_monitor_free m := by
  rw [afterLoop_events] at h
  split at h <;> simp at h <;> tauto

theorem cons_split {x e : Event} {l pre post : List Event} (h : x :: l = pre ++ e :: post) :
    (pre = [] ∧ e = x ∧ post = l) ∨ ∃ pre', pre = x :: pre' ∧ l = pre' ++ e :: post := by
  rcases List.cons_eq_append_iff.mp h with ⟨rfl, h2⟩ | ⟨pre1, rfl, h2⟩
  · simp only [List.cons.injEq] at h2
    exact Or.inl ⟨rfl, h2.1, h2.2⟩
  · exact Or.inr ⟨pre1, rfl, h2⟩

/-! ### Faults of the monitor calls -/

theorem faultOk_of_no_ret (m : Option Nat) (X : Run)
    (h : ∀ e ∈ X.events, e.monitorRet = none) : FaultOk m X := by
  intro pre post e r hrun he _
  have : e ∈ X.events := by rw [hrun]; simp
  rw [h e this] at he
  cases he

theorem faultOk_cleanup (m : Option Nat) (r : Int) : FaultOk m (cleanup m r) :=
  faultOk_of_no_ret m _ (by simp [Event.monitorRet])

theorem faultOk_afterLoop (env : Env) (m : Option Nat) (p : PollResult) :
    FaultOk m (afterLoop env m p) := by
  apply faultOk_of_no_ret
  intro e he
  rcases mem_afterLoop _ _ _ _ he with rfl | rfl <;> rfl

theorem faultOk_after (m : Option Nat) (x : Event) (X : Run)
    (hx : ∀ c, x.monitorRet = some c → 0 ≤ c) (hX : FaultOk m X) :
    FaultOk m (Run.after x X) := by
  intro pre post e r hrun he hr
  rcases cons_split hrun with ⟨-, rfl, -⟩ | ⟨pre1, -, h2⟩
  · have := hx r he
    omega
  · exact hX pre1 post e r h2 he hr

theorem faultOk_after_fault (m : Option Nat) (x : Event) (c : Int)
    (hx : x.monitorRet = some c) : FaultOk m (Run.after x (cleanup m c)) := by
  intro pre post e r hrun he hr
  rcases cons_split hrun with ⟨-, rfl, rfl⟩ | ⟨pre1, -, h2⟩
  · rw [hx] at he
    cases he
    exact ⟨rfl, rfl⟩
  · exact faultOk_cleanup m c pre1 post e r h2 he hr

theorem faultOk_loop (env : Env) (m : Option Nat) :
    ∀ fuel i : Nat, FaultOk m (loop env m fuel i) := by
  intro fuel
  induction fuel with
  | zero => intro i; exact faultOk_of_no_ret m _ (by simp)
  | succ fuel ih =>
    intro i
    rw [loop_succ]
    by_cases hf : env.refresh_ret i < 0
    · rw [if_pos hf]
      exact faultOk_after_fault m _ _ rfl
    · rw [if_neg hf]
      apply faultOk_after
      · intro c hc
        simp only [Event.monitorRet, Option.some.injEq] at hc
        omega
      · apply faultOk_after
        · intro c hc
          cases hc
        · split
          · exact ih (i + 1)
          · exact faultOk_afterLoop env m _

theorem faultOk_main (env : Env) (fuel : Nat) : FaultOk env.new_monitor (main env fuel) := by
  unfold main
  by_cases h1 : env.new_ret < 0
  · simp only [h1, if_true]
    exact faultOk_after_fault _ _ _ rfl
  · by_cases h2 : env.start_ret < 0
    · simp only [h1, h2, if_true, if_false]
      exact faultOk_after _ _ _ (by intro c hc; cases hc; omega) (faultOk_after_fault _ _ _ rfl)
    · by_cases h3 : env.list_ret < 0
      · simp only [h1, h2, h3, if_true, if_false]
        exact faultOk_after _ _ _ (by intro c hc; cases hc; omega)
          (faultOk_after _ _ _ (by intro c hc; cases hc; omega) (faultOk_after_fault _ _ _ rfl))
      · simp only [h1, h2, h3, if_false]
        exact faultOk_after _ _ _ (by intro c hc; cases hc; omega)
          (faultOk_after _ _ _ (by intro c hc; cases hc; omega)
            (faultOk_after _ _ _ (by intro c hc; cases hc; omega)
              (faultOk_after _ _ _ (by intro c hc; cases hc)
                (faultOk_after _ _ _ (by intro c hc; cases hc) (faultOk_loop env _ fuel 0)))))

/-! ### The wait that ends the loop -/

theorem pollOk_of_no_poll (env : Env) (m : Option Nat) (X : Run)
    (h : ∀ e ∈ X.events, e.isPoll = false) : PollOk env m X := by
  intro pre post d c t p hrun _
  have hmem : Event.hs_poll d c t p ∈ X.events := by rw [hrun]; simp
  have := h _ hmem
  simp [Event.isPoll] at this

theorem pollOk_cleanup (env : Env) (m : Option Nat) (r : Int) : PollOk env m (cleanup m r) :=
  pollOk_of_no_poll env m _ (by simp [Event.isPoll])

theorem pollOk_afterLoop (env : Env) (m : Option Nat) (p : PollResult) :
    PollOk env m (afterLoop env m p) := by
  apply pollOk_of_no_poll
  intro e he
  rcases mem_afterLoop _ _ _ _ he with rfl | rfl <;> rfl

theorem pollOk_after (env : Env) (m : Option Nat) (x : Event) (X : Run)
    (hx : x.isPoll = false) (hX : PollOk env m X) : PollOk env m (Run.after x X) := by
  intro pre post d c t p hrun hp
  rcases cons_split hrun with ⟨-, h, -⟩ | ⟨pre1, -, h2⟩
  · rw [← h] at hx
    simp [Event.isPoll] at hx
  · exact hX pre1 post d c t p h2 hp

theorem pollOk_after_cont (env : Env) (m : Option Nat) (d : List Int) (c : Nat) (t : Int)
    (p : PollResult) (X : Run) (hp : 0 < p.ret ∧ p.ready1 = false) (hX : PollOk env m X) :
    PollOk env m (Run.after (Event.hs_poll d c t p) X) := by
  intro pre post d' c' t' p' hrun hp'
  rcases cons_split hrun with ⟨-, h, -⟩ | ⟨pre1, -, h2⟩
  · simp only [Event.hs_poll.injEq] at h
    obtain ⟨-, -, -, rfl⟩ := h
    exact absurd hp hp'
  · exact hX pre1 post d' c' t' p' h2 hp'

theorem loop_cond_iff (p : PollResult) :
    ((p.ret > 0 && !p.ready1) = true) ↔ (0 < p.ret ∧ p.ready1 = false) := by
  cases h : p.ready1 <;> simp

theorem pollOk_loop (env : Env) (m : Option Nat) :
    ∀ fuel i : Nat, PollOk env m (loop env m fuel i) := by
  intro fuel
  induction fuel with
  | zero => intro i; exact pollOk_of_no_poll env m _ (by simp)
  | succ fuel ih =>
    intro i
    rw [loop_succ]
    refine pollOk_after _ _ _ _ rfl ?_
    by_cases hf : env.refresh_ret i < 0
    · rw [if_pos hf]
      exact pollOk_cleanup env m _
    · rw [if_neg hf]
      by_cases hc : ((env.poll i).ret > 0 && !(env.poll i).ready1) = true
      · rw [if_pos hc]
        exact pollOk_after_cont _ _ _ _ _ _ _ ((loop_cond_iff _).mp hc) (ih (i + 1))
      · rw [if_neg hc]
        intro pre post d c t p hrun hp
        rcases cons_split hrun with ⟨-, h, rfl⟩ | ⟨pre1, -, h2⟩
        · simp only [Event.hs_poll.injEq] at h
          obtain ⟨-, -, -, rfl⟩ := h
          exact ⟨rfl, rfl⟩
        · exact pollOk_afterLoop env m _ pre1 post d c t p h2 hp

theorem pollOk_main (env : Env) (fuel : Nat) : PollOk env env.new_monitor (main env fuel) := by
  unfold main
  refine pollOk_after _ _ _ _ rfl ?_
  split
  · exact pollOk_cleanup _ _ _
  · refine pollOk_after _ _ _ _ rfl ?_
    split
    · exact pollOk_cleanup _ _ _
    · refine pollOk_after _ _ _ _ rfl ?_
      split
      · exact pollOk_cleanup _ _ _
      · exact pollOk_after _ _ _ _ rfl (pollOk_after _ _ _ _ rfl (pollOk_loop env _ fuel 0))

/-! ### What follows a wait that satisfies the loop condition -/

theorem nextOk_of_no_poll (env : Env) (m : Option Nat) (X Y : Run)
    (h : ∀ e ∈ X.events, e.isPoll = false) : NextOk env m X Y := by
  intro pre post d c t p hrun _
  have hmem : Event.hs_poll d c t p ∈ X.events := by rw [hrun]; simp
  have := h _ hmem
  simp [Event.isPoll] at this

theorem nextOk_after (env : Env) (m : Option Nat) (x : Event) (X Y : Run)
    (hx : x.isPoll = false) (h : NextOk env m X Y) :
    NextOk env m (Run.after x X) (Run.after x Y) := by
  intro pre post d c t p hrun hp
  rcases cons_split hrun with ⟨-, he, -⟩ | ⟨pre1, rfl, h2⟩
  · rw [← he] at hx
    simp [Event.isPoll] at hx
  · obtain ⟨k, rest, hk⟩ := h pre1 post d c t p h2 hp
    exact ⟨k, rest, by simp [hk]⟩

theorem nextOk_loop (env : Env) (m : Option Nat) :
    ∀ fuel i : Nat, NextOk env m (loop env m fuel i) (loop env m (fuel + 1) i) := by
  intro fuel
  induction fuel with
  | zero => intro i; exact nextOk_of_no_poll env m _ _ (by simp)
  | succ fuel ih =>
    intro i
    rw [loop_succ env m (fuel + 1) i, loop_succ env m fuel i]
    refine nextOk_after _ _ _ _ _ rfl ?_
    by_cases hf : env.refresh_ret i < 0
    · simp only [if_pos hf]
      exact nextOk_of_no_poll env m _ _ (by simp [Event.isPoll])
    · simp only [if_neg hf]
      by_cases hc : ((env.poll i).ret > 0 && !(env.poll i).ready1) = true
      · simp only [if_pos hc]
        intro pre post d c t p hrun hp
        rcases cons_split hrun with ⟨rfl, he, rfl⟩ | ⟨pre1, rfl, h2⟩
        · refine ⟨i + 1, ((loop env m (fuel + 1) (i + 1)).events).tail, ?_⟩
          rw [he]
          simp [loop_succ env m fuel (i + 1)]
        · obtain ⟨k, rest, hk⟩ := ih (i + 1) pre1 post d c t p h2 hp
          exact ⟨k, rest, by simp [hk]⟩
      · simp only [if_neg hc]
        intro pre post d c t p hrun hp
        rcases cons_split hrun with ⟨-, he, -⟩ | ⟨pre1, -, h2⟩
        · simp only [Event.hs_poll.injEq] at he
          obtain ⟨-, -, -, rfl⟩ := he
          exact absurd ((loop_cond_iff _).mpr hp) hc
        · have hmem : Event.hs_poll d c t p ∈ (afterLoop env m (env.poll i)).events := by
            rw [h2]; simp
          rcases mem_afterLoop _ _ _ _ hmem with h | h <;> cases h

theorem nextOk_main (env : Env) (fuel : Nat) :
    NextOk env env.new_monitor (main env fuel) (main env (fuel + 1)) := by
  unfold main
  refine nextOk_after _ _ _ _ _ rfl ?_
  split
  · exact nextOk_of_no_poll _ _ _ _ (by simp [Event.isPoll])
  · refine nextOk_after _ _ _ _ _ rfl ?_
    split
    · exact nextOk_of_no_poll _ _ _ _ (by simp [Event.isPoll])
    · refine nextOk_after _ _ _ _ _ rfl ?_
      split
      · exact nextOk_of_no_poll _ _ _ _ (by simp [Event.isPoll])
      · exact nextOk_after _ _ _ _ _ rfl (nextOk_after _ _ _ _ _ rfl (nextOk_loop env _ fuel 0))

/-! ### What follows a refresh that does not fail -/

theorem refreshOk_of_no_refresh (env : Env) (X : Run)
    (h : ∀ e ∈ X.events, e.isRefresh = false) : RefreshOk env X := by
  intro pre post m r hrun _
  have hmem : Event.hs_monitor_refresh m r ∈ X.events := by rw [hrun]; simp
  have := h _ hmem
  simp [Event.isRefresh] at this

theorem refreshOk_after (env : Env) (x : Event) (X : Run)
    (hx : x.isRefresh = false) (h : RefreshOk env X) : RefreshOk env (Run.after x X) := by
  intro pre post m r hrun hr
  rcases cons_split hrun with ⟨-, he, -⟩ | ⟨pre1, -, h2⟩
  · rw [← he] at hx
    simp [Event.isRefresh] at hx
  · exact h pre1 post m r h2 hr

theorem refreshOk_afterLoop (env : Env) (m : Option Nat) (p : PollResult) :
    RefreshOk env (afterLoop env m p) := by
  apply refreshOk_of_no_refresh
  intro e he
  rcases mem_afterLoop _ _ _ _ he with rfl | rfl <;> rfl

theorem refreshOk_loop (env : Env) (m : Option Nat) :
    ∀ fuel i : Nat, RefreshOk env (loop env m fuel i) := by
  intro fuel
  induction fuel with
  | zero => intro i; exact refreshOk_of_no_refresh env _ (by simp)
  | succ fuel ih =>
    intro i
    rw [loop_succ]
    have hrest : RefreshOk env
        (if (env.poll i).ret > 0 && !(env.poll i).ready1 then loop env m fuel (i + 1)
         else afterLoop env m (env.poll i)) := by
      split
      · exact ih (i + 1)
      · exact refreshOk_afterLoop env m _
    intro pre post m' r hrun hr
    rcases cons_split hrun with ⟨-, he, rfl⟩ | ⟨pre1, -, h2⟩
    · simp only [Event.hs_monitor_refresh.injEq] at he
      obtain ⟨-, rfl⟩ := he
      rw [if_neg (by omega)]
      exact ⟨env.poll i, _, rfl⟩
    · by_cases hf : env.refresh_ret i < 0
      · rw [if_pos hf] at h2
        exact refreshOk_of_no_refresh env _ (by simp [Event.isRefresh]) pre1 post m' r h2 hr
      · rw [if_neg hf] at h2
        exact refreshOk_after env _ _ (by rfl) hrest pre1 post m' r h2 hr

theorem refreshOk_main (env : Env) (fuel : Nat) : RefreshOk env (main env fuel) := by
  unfold main
  refine refreshOk_after _ _ _ rfl ?_
  split
  · exact refreshOk_of_no_refresh _ _ (by simp [Event.isRefresh])
  · refine refreshOk_after _ _ _ rfl ?_
    split
    · exact refreshOk_of_no_refresh _ _ (by simp [Event.isRefresh])
    · refine refreshOk_after _ _ _ rfl ?_
      split
      · exact refreshOk_of_no_refresh _ _ (by simp [Event.isRefresh])
      · exact refreshOk_after _ _ _ rfl (refreshOk_after _ _ _ rfl (refreshOk_loop env _ fuel 0))

/-! ### Non-negative returns of list and refresh do not reach `r` -/

theorem afterLoop_r_congr (env env' : Env) (m : Option Nat) (p : PollResult) :
    (afterLoop env' m p).r = (afterLoop env m p).r := by
  rw [afterLoop_r, afterLoop_r]

theorem loop_r_congr (env env' : Env) (m : Option Nat) (hpoll : env'.poll = env.poll)
    (href : ∀ i, env'.refresh_ret i = env.refresh_ret i ∨
      (0 ≤ env.refresh_ret i ∧ 0 ≤ env'.refresh_ret i)) :
    ∀ fuel i : Nat, (loop env' m fuel i).r = (loop env m fuel i).r := by
  intro fuel
  induction fuel with
  | zero => intro i; rfl
  | succ fuel ih =>
    intro i
    rw [loop_succ env' m fuel i, loop_succ env m fuel i]
    simp only [after_r, hpoll]
    by_cases hf : env.refresh_ret i < 0
    · have heq : env'.refresh_ret i = env.refresh_ret i := by
        rcases href i with h | ⟨h1, _⟩
        · exact h
        · omega
      rw [heq, if_pos hf, if_pos hf]
    · have hf' : ¬ env'.refresh_ret i < 0 := by
        rcases href i with h | ⟨_, h2⟩
        · rw [h]; exact hf
        · omega
      rw [if_neg hf, if_neg hf']
      simp only [after_r]
      by_cases hc : ((env.poll i).ret > 0 && !(env.poll i).ready1) = true
      · rw [if_pos hc, if_pos hc]
        exact ih (i + 1)
      · rw [if_neg hc, if_neg hc]
        exact afterLoop_r_congr env env' m _

theorem main_r_congr (env env' : Env) (h : SameUpToAborts env env') (fuel : Nat) :
    (main env' fuel).r = (main env fuel).r := by
  obtain ⟨-, hnew, hmon, hstart, -, -, hpoll, hlist, href⟩ := h
  unfold main
  simp only [hnew, hmon, hstart, after_r]
  by_cases h1 : env.new_ret < 0
  · rw [if_pos h1, if_pos h1]
  · rw [if_neg h1, if_neg h1]
    simp only [after_r]
    by_cases h2 : env.start_ret < 0
    · rw [if_pos h2, if_pos h2]
    · rw [if_neg h2, if_neg h2]
      simp only [after_r]
      by_cases h3 : env.list_ret < 0
      · have heq : env'.list_ret = env.list_ret := by
          rcases hlist with h | ⟨h, _⟩
          · exact h
          · omega
        rw [heq, if_pos h3, if_pos h3]
      · have h3' : ¬ env'.list_ret < 0 := by
          rcases hlist with h | ⟨_, h⟩
          · rw [h]; exact h3
          · omega
        rw [if_neg h3, if_neg h3']
        simp only [after_r]
        exact loop_r_congr env env' _ hpoll href fuel 0

/-! ### `hs_monitor_free` -/

theorem freeOk_cleanup (m : Option Nat) (r : Int) : FreeOk m (cleanup m r) :=
  Or.inr ⟨by simp, [], by simp, by simp⟩

theorem freeOk_afterLoop (env : Env) (m : Option Nat) (p : PollResult) :
    FreeOk m (afterLoop env m p) := by
  refine Or.inr ⟨by simp [afterLoop_r], _, afterLoop_events env m p, ?_⟩
  intro e he
  split at he <;> simp at he
  subst he
  rfl

theorem freeOk_after (m : Option Nat) (x : Event) (X : Run) (hx : x.isFree = false)
    (h : FreeOk m X) : FreeOk m (Run.after x X) := by
  rcases h with ⟨h1, h2⟩ | ⟨h1, init, h2, h3⟩
  · refine Or.inl ⟨h1, ?_⟩
    intro e he
    simp only [after_events, List.mem_cons] at he
    rcases he with rfl | he
    · exact hx
    · exact h2 e he
  · refine Or.inr ⟨h1, x :: init, by simp [h2], ?_⟩
    intro e he
    simp only [List.mem_cons] at he
    rcases he with rfl | he
    · exact hx
    · exact h3 e he

theorem freeOk_loop (env : Env) (m : Option Nat) :
    ∀ fuel i : Nat, FreeOk m (loop env m fuel i) := by
  intro fuel
  induction fuel with
  | zero => intro i; exact Or.inl ⟨rfl, by simp⟩
  | succ fuel ih =>
    intro i
    rw [loop_succ]
    refine freeOk_after _ _ _ rfl ?_
    split
    · exact freeOk_cleanup m _
    · refine freeOk_after _ _ _ rfl ?_
      split
      · exact ih (i + 1)
      · exact freeOk_afterLoop env m _

theorem freeOk_main (env : Env) (fuel : Nat) : FreeOk env.new_monitor (main env fuel) := by
  unfold main
  refine freeOk_after _ _ _ rfl ?_
  split
  · exact freeOk_cleanup _ _
  · refine freeOk_after _ _ _ rfl ?_
    split
    · exact freeOk_cleanup _ _
    · refine freeOk_after _ _ _ rfl ?_
      split
      · exact freeOk_cleanup _ _
      · exact freeOk_after _ _ _ rfl (freeOk_after _ _ _ rfl (freeOk_loop env _ fuel 0))

/-! ### When the run returns -/

theorem stopsAt_iff (env : Env) (i : Nat) :
    env.stopsAt i = true ↔
      (env.refresh_ret i < 0 ∨ ¬ ((env.poll i).ret > 0 && !(env.poll i).ready1) = true) := by
  unfold Env.stopsAt
  cases h : (env.poll i).ready1 <;> simp

theorem loop_done_iff (env : Env) (m : Option Nat) :
    ∀ fuel i : Nat,
      (loop env m fuel i).r ≠ none ↔ ∃ j, j < fuel ∧ env.stopsAt (i + j) = true := by
  intro fuel
  induction fuel with
  | zero => intro i; simp
  | succ fuel ih =>
    intro i
    rw [loop_succ]
    simp only [after_r]
    by_cases hs : env.stopsAt i = true
    · have hr : (if env.refresh_ret i < 0 then cleanup m (env.refresh_ret i)
          else Run.after (Event.hs_poll [env.descriptor, env.stdin_desc] 2 (-1) (env.poll i))
            (if (env.poll i).ret > 0 && !(env.poll i).ready1 then loop env m fuel (i + 1)
             else afterLoop env m (env.poll i))).r ≠ none := by
        rcases (stopsAt_iff env i).mp hs with hf | hc
        · rw [if_pos hf]; simp
        · by_cases hf : env.refresh_ret i < 0
          · rw [if_pos hf]; simp
          · rw [if_neg hf, if_neg hc]; simp [afterLoop_r]
      exact ⟨fun _ => ⟨0, by omega, hs⟩, fun _ => hr⟩
    · have hns := (not_congr (stopsAt_iff env i)).mp hs
      have hf : ¬ env.refresh_ret i < 0 := fun h => hns (Or.inl h)
      have hc : ((env.poll i).ret > 0 && !(env.poll i).ready1) = true := by
        by_contra h
        exact hns (Or.inr h)
      rw [if_neg hf, if_pos hc]
      simp only [after_r]
      rw [ih (i + 1)]
      constructor
      · rintro ⟨j, hj, hst⟩
        refine ⟨j + 1, by omega, ?_⟩
        rw [show i + (j + 1) = i + 1 + j by omega]
        exact hst
      · rintro ⟨j, hj, hst⟩
        cases j with
        | zero => exact absurd hst hs
        | succ j =>
          refine ⟨j, by omega, ?_⟩
          rw [show i + 1 + j = i + (j + 1) by omega]
          exact hst

theorem main_done_iff (env : Env) (fuel : Nat) :
    (main env fuel).r ≠ none ↔
      (env.new_ret < 0 ∨ env.start_ret < 0 ∨ env.list_ret < 0 ∨
        ∃ j, j < fuel ∧ env.stopsAt j = true) := by
  unfold main
  simp only [after_r]
  by_cases h1 : env.new_ret < 0
  · simp [h1]
  · by_cases h2 : env.start_ret < 0
    · simp [h1, h2]
    · by_cases h3 : env.list_ret < 0
      · simp [h1, h2, h3]
      · simp only [h1, h2, h3, if_false, after_r, false_or]
        simpa using loop_done_iff env env.new_monitor fuel 0

/-- Once the loop has been left, observing it for more passes changes nothing. -/
theorem loop_stable (env : Env) (m : Option Nat) :
    ∀ fuel i : Nat, (loop env m fuel i).r ≠ none → loop env m (fuel + 1) i = loop env m fuel i := by
  intro fuel
  induction fuel with
  | zero => intro i h; simp at h
  | succ fuel ih =>
    intro i h
    rw [loop_succ env m (fuel + 1) i, loop_succ env m fuel i]
    rw [loop_succ env m fuel i] at h
    by_cases hf : env.refresh_ret i < 0
    · simp only [if_pos hf]
    · simp only [if_neg hf, after_r] at h ⊢
      by_cases hc : ((env.poll i).ret > 0 && !(env.poll i).ready1) = true
      · simp only [if_pos hc] at h ⊢
        rw [ih (i + 1) h]
      · simp only [if_neg hc]

theorem main_stable (env : Env) (fuel : Nat) (h : (main env fuel).r ≠ none) :
    ∀ k : Nat, main env (fuel + k) = main env fuel := by
  have step : ∀ n : Nat, (main env n).r ≠ none → main env (n + 1) = main env n := by
    intro n hn
    unfold main at hn ⊢
    by_cases h1 : env.new_ret < 0
    · simp only [if_pos h1]
    · by_cases h2 : env.start_ret < 0
      · simp only [if_neg h1, if_pos h2]
      · by_cases h3 : env.list_ret < 0
        · simp only [if_neg h1, if_neg h2, if_pos h3]
        · simp only [if_neg h1, if_neg h2, if_neg h3, after_r] at hn ⊢
          rw [loop_stable env _ n 0 hn]
  intro k
  induction k with
  | zero => rfl
  | succ k ih =>
    rw [← Nat.add_assoc, step (fuel + k) (by rw [ih]; exact h), ih]

/-! ### The order of the calls -/

theorem precOk_of_no_poll (env : Env) (X : Run)
    (h : ∀ e ∈ X.events, e.isPoll = false) : PrecOk env X := by
  intro pre post d c t p hrun
  have hmem : Event.hs_poll d c t p ∈ X.events := by rw [hrun]; simp
  have := h _ hmem
  simp [Event.isPoll] at this

theorem precOk_after (env : Env) (x : Event) (X : Run) (hx : x.isPoll = false)
    (h : PrecOk env X) : PrecOk env (Run.after x X) := by
  intro pre post d c t p hrun
  rcases cons_split hrun with ⟨-, he, -⟩ | ⟨pre1, rfl, h2⟩
  · rw [← he] at hx
    simp [Event.isPoll] at hx
  · obtain ⟨hd, hc, ht, pre', m, r, hpre, hr⟩ := h pre1 post d c t p h2
    exact ⟨hd, hc, ht, x :: pre', m, r, by simp [hpre], hr⟩

theorem precOk_pass (env : Env) (m : Option Nat) (r : Int) (q : PollResult) (X : Run)
    (hr : 0 ≤ r) (h : PrecOk env X) :
    PrecOk env (Run.after (Event.hs_monitor_refresh m r)
      (Run.after (Event.hs_poll [env.descriptor, env.stdin_desc] 2 (-1) q) X)) := by
  intro pre post d c t p hrun
  rcases cons_split hrun with ⟨-, he, -⟩ | ⟨pre1, rfl, h2⟩
  · cases he
  · rcases cons_split h2 with ⟨rfl, he, -⟩ | ⟨pre2, rfl, h3⟩
    · simp only [Event.hs_poll.injEq] at he
      obtain ⟨rfl, rfl, rfl, -⟩ := he
      exact ⟨rfl, rfl, rfl, [], m, r, rfl, hr⟩
    · obtain ⟨hd, hc, ht, pre', m', r', hpre, hr'⟩ := h pre2 post d c t p h3
      exact ⟨hd, hc, ht, Event.hs_monitor_refresh m r ::
        Event.hs_poll [env.descriptor, env.stdin_desc] 2 (-1) q :: pre', m', r',
        by simp [hpre], hr'⟩

theorem precOk_loop (env : Env) (m : Option Nat) :
    ∀ fuel i : Nat, PrecOk env (loop env m fuel i) := by
  intro fuel
  induction fuel with
  | zero => intro i; exact precOk_of_no_poll env _ (by simp)
  | succ fuel ih =>
    intro i
    rw [loop_succ]
    by_cases hf : env.refresh_ret i < 0
    · rw [if_pos hf]
      exact precOk_of_no_poll env _ (by simp [Event.isPoll])
    · rw [if_neg hf]
      refine precOk_pass env m _ _ _ (by omega) ?_
      split
      · exact ih (i + 1)
      · apply precOk_of_no_poll
        intro e he
        rcases mem_afterLoop _ _ _ _ he with rfl | rfl <;> rfl

theorem precOk_main (env : Env) (fuel : Nat) : PrecOk env (main env fuel) := by
  unfold main
  refine precOk_after _ _ _ rfl ?_
  split
  · exact precOk_of_no_poll _ _ (by simp [Event.isPoll])
  · refine precOk_after _ _ _ rfl ?_
    split
    · exact precOk_of_no_poll _ _ (by simp [Event.isPoll])
    · refine precOk_after _ _ _ rfl ?_
      split
      · exact precOk_of_no_poll _ _ (by simp [Event.isPoll])
      · exact precOk_after _ _ _ rfl (precOk_after _ _ _ rfl (precOk_loop env _ fuel 0))

/-- The calls of the loop: complete passes, each a refresh that did not fail followed by a
wait, and then nothing (loop still going), a failed refresh and `hs_monitor_free`, or the
statements after the loop. -/
theorem loop_shape (env : Env) (m : Option Nat) :
    ∀ fuel i : Nat, ∃ (n : Nat) (tail : List Event),
      n ≤ fuel ∧ (loop env m fuel i).events = passes env m n i ++ tail ∧
      (∀ j, j < n → 0 ≤ env.refresh_ret (i + j)) ∧
      ((tail = [] ∧ n = fuel) ∨
        (tail = [Event.hs_monitor_refresh m (env.refresh_ret (i + n)),
            Event.hs_monitor_free m] ∧ env.refresh_ret (i + n) < 0) ∨
        (1 ≤ n ∧ tail = (afterLoop env m (env.poll (i + n - 1))).events)) := by
  intro fuel
  induction fuel with
  | zero => intro i; exact ⟨0, [], Nat.le_refl 0, rfl, by intro j hj; omega, Or.inl ⟨rfl, rfl⟩⟩
  | succ fuel ih =>
    intro i
    rw [loop_succ]
    by_cases hf : env.refresh_ret i < 0
    · rw [if_pos hf]
      exact ⟨0, _, by omega, rfl, by intro j hj; omega, Or.inr (Or.inl ⟨rfl, hf⟩)⟩
    · rw [if_neg hf]
      by_cases hc : ((env.poll i).ret > 0 && !(env.poll i).ready1) = true
      · rw [if_pos hc]
        obtain ⟨n, tail, hn, hev, hok, htail⟩ := ih (i + 1)
        refine ⟨n + 1, tail, by omega, by simp [passes, hev], ?_, ?_⟩
        · intro j hj
          cases j with
          | zero => simpa using Int.not_lt.mp hf
          | succ j =>
            have := hok j (by omega)
            rwa [show i + 1 + j = i + (j + 1) by omega] at this
        · rcases htail with ⟨h1, h2⟩ | ⟨h1, h2⟩ | ⟨h1, h2⟩
          · exact Or.inl ⟨h1, by omega⟩
          · rw [show i + 1 + n = i + (n + 1) by omega] at h1 h2
            exact Or.inr (Or.inl ⟨h1, h2⟩)
          · rw [show i + 1 + n - 1 = i + (n + 1) - 1 by omega] at h2
            exact Or.inr (Or.inr ⟨by omega, h2⟩)
      · rw [if_neg hc]
        refine ⟨1, (afterLoop env m (env.poll i)).events, by omega, by simp [passes], ?_,
          Or.inr (Or.inr ⟨Nat.le_refl 1, by simp⟩)⟩
        intro j hj
        have hj0 : j = 0 := by omega
        subst hj0
        simpa using Int.not_lt.mp hf

/-! ### The sign of `r` at the `return` -/

theorem signOk_after (x : Event) (X : Run) (h : SignOk X) : SignOk (Run.after x X) := by
  intro v hv
  obtain ⟨h1, h2, h3⟩ := h v hv
  refine ⟨h1, ?_, ?_⟩
  · intro hv0
    obtain ⟨e, he, hp⟩ := h2 hv0
    exact ⟨e, List.mem_cons_of_mem _ he, hp⟩
  · intro hneg
    rcases h3 hneg with ⟨e, he, hp⟩ | ⟨e, he, hp⟩
    · exact Or.inl ⟨e, List.mem_cons_of_mem _ he, hp⟩
    · exact Or.inr ⟨e, List.mem_cons_of_mem _ he, hp⟩

theorem signOk_fault (m : Option Nat) (x : Event) (c : Int) (hx : x.monitorRet = some c)
    (hc : c < 0) : SignOk (Run.after x (cleanup m c)) := by
  intro v hv
  simp only [after_r, cleanup_r, Option.some.injEq] at hv
  subst hv
  refine ⟨by omega, fun h => by omega, fun _ => Or.inl ⟨x, by simp, hx⟩⟩

theorem signOk_last_poll (env : Env) (m : Option Nat) (d : List Int) (c : Nat) (t : Int)
    (p : PollResult) (hp : ¬ (0 < p.ret ∧ p.ready1 = false)) :
    SignOk (Run.after (Event.hs_poll d c t p) (afterLoop env m p)) := by
  intro v hv
  simp only [after_r, afterLoop_r, Option.some.injEq] at hv
  have hmem : Event.hs_poll d c t p ∈
      (Run.after (Event.hs_poll d c t p) (afterLoop env m p)).events := by simp
  by_cases hr : p.ready1 = true
  · rw [if_pos hr] at hv
    subst hv
    exact ⟨Int.le_refl 0, fun _ => ⟨_, hmem, p, rfl, Or.inl hr⟩, fun h => by omega⟩
  · rw [if_neg hr] at hv
    subst hv
    have hr' : p.ready1 = false := by simpa using hr
    have hle : p.ret ≤ 0 := by
      by_contra h
      exact hp ⟨by omega, hr'⟩
    exact ⟨hle, fun h0 => ⟨_, hmem, p, rfl, Or.inr h0⟩,
      fun _ => Or.inr ⟨_, hmem, p, rfl, rfl, hr'⟩⟩

theorem signOk_loop (env : Env) (m : Option Nat) :
    ∀ fuel i : Nat, SignOk (loop env m fuel i) := by
  intro fuel
  induction fuel with
  | zero => intro i v hv; simp at hv
  | succ fuel ih =>
    intro i
    rw [loop_succ]
    by_cases hf : env.refresh_ret i < 0
    · rw [if_pos hf]
      exact signOk_fault m _ _ rfl hf
    · rw [if_neg hf]
      apply signOk_after
      by_cases hc : ((env.poll i).ret > 0 && !(env.poll i).ready1) = true
      · rw [if_pos hc]
        exact signOk_after _ _ (ih (i + 1))
      · rw [if_neg hc]
        exact signOk_last_poll env m _ _ _ _ (fun h => hc ((loop_cond_iff _).mpr h))

theorem signOk_main (env : Env) (fuel : Nat) : SignOk (main env fuel) := by
  unfold main
  by_cases h1 : env.new_ret < 0
  · simp only [h1, if_true]
    exact signOk_fault _ _ _ rfl h1
  · by_cases h2 : env.start_ret < 0
    · simp only [h1, h2, if_true, if_false]
      exact signOk_after _ _ (signOk_fault _ _ _ rfl h2)
    · by_cases h3 : env.list_ret < 0
      · simp only [h1, h2, h3, if_true, if_false]
        exact signOk_after _ _ (signOk_after _ _ (signOk_fault _ _ _ rfl h3))
      · simp only [h1, h2, h3, if_false]
        exact signOk_after _ _ (signOk_after _ _ (signOk_after _ _
          (signOk_after _ _ (signOk_after _ _ (signOk_loop env _ fuel 0)))))

theorem codesAboveMin_mem (X : Run) (h : X.codesAboveMin = true) (e : Event) (he : e ∈ X.events)
    (c : Int) (hc : e.retCode = some c) : INT_MIN < c := by
  unfold Run.codesAboveMin at h
  have := List.all_eq_true.mp h e he
  rw [hc] at this
  simpa using this

theorem retCode_of_monitorRet (e : Event) (c : Int) (h : e.monitorRet = some c) :
    e.retCode = some c := by
  cases e <;> simp_all [Event.retCode, Event.monitorRet]

theorem retCode_of_pollResult (e : Event) (p : PollResult) (h : e.pollResult = some p) :
    e.retCode = some p.ret := by
  cases e <;> simp_all [Event.retCode, Event.pollResult]

theorem pollResult_eq (e : Event) (p : PollResult) (h : e.pollResult = some p) :
    ∃ d c t, e = Event.hs_poll d c t p := by
  cases e <;> simp_all [Event.pollResult]

/-- An `hs_poll` of the run that does not satisfy the loop condition is the last wait of the
run: neither a refresh nor a wait follows it. -/
theorem last_poll_of_mem (env : Env) (fuel : Nat) (e : Event) (p : PollResult)
    (he : e ∈ (main env fuel).events) (hp : e.pollResult = some p)
    (hstop : ¬ (0 < p.ret ∧ p.ready1 = false)) :
    ∃ (pre post : List Event) (d : List Int) (c : Nat) (t : Int),
      (main env fuel).events = pre ++ Event.hs_poll d c t p :: post ∧
        (∀ e' ∈ post, e'.isRefresh = false ∧ e'.isPoll = false) ∧
        (main env fuel).r = some (if p.ready1 = true then 0 else p.ret) := by
  obtain ⟨d, c, t, rfl⟩ := pollResult_eq e p hp
  obtain ⟨pre, post, hrun⟩ := List.append_of_mem he
  obtain ⟨h1, h2⟩ := pollOk_main env fuel pre post d c t p hrun hstop
  refine ⟨pre, post, d, c, t, hrun, ?_, by rw [h2, afterLoop_r]⟩
  intro e' he'
  rw [h1] at he'
  rcases mem_afterLoop _ _ _ _ he' with rfl | rfl <;> exact ⟨rfl, rfl⟩

/-! ### The conversions of `printf` -/

theorem core_step (f n : Nat) (ds : List Char) :
    Nat.toDigitsCore 16 (f + 1) n ds =
      if n / 16 = 0 then Nat.digitChar (n % 16) :: ds
      else Nat.toDigitsCore 16 f (n / 16) (Nat.digitChar (n % 16) :: ds) := by
  simp [Nat.toDigitsCore]

theorem toDigits16 (v : Nat) (h : v < 65536) :
    Nat.toDigits 16 v =
      if v < 16 then [Nat.digitChar (v % 16)]
      else if v < 256 then [Nat.digitChar (v / 16 % 16), Nat.digitChar (v % 16)]
      else if v < 4096 then
        [Nat.digitChar (v / 256 % 16), Nat.digitChar (v / 16 % 16), Nat.digitChar (v % 16)]
      else [Nat.digitChar (v / 4096 % 16), Nat.digitChar (v / 256 % 16),
        Nat.digitChar (v / 16 % 16), Nat.digitChar (v % 16)] := by
  unfold Nat.toDigits
  rw [core_step]
  by_cases h1 : v < 16
  · rw [if_pos h1, if_pos (by omega)]
  · rw [if_neg h1, if_neg (by omega)]
    obtain ⟨a, rfl⟩ : ∃ a, v = a + 1 := ⟨v - 1, by omega⟩
    rw [core_step]
    by_cases h2 : a + 1 < 256
    · rw [if_pos h2, if_pos (by omega)]
    · rw [if_neg h2, if_neg (by omega)]
      obtain ⟨b, rfl⟩ : ∃ b, a = b + 1 := ⟨a - 1, by omega⟩
      rw [core_step]
      have e2 : (b + 1 + 1) / 16 / 16 = (b + 1 + 1) / 256 := by omega
      by_cases h3 : b + 1 + 1 < 4096
      · rw [if_pos h3, if_pos (by omega), e2]
      · rw [if_neg h3, if_neg (by omega)]
        obtain ⟨c, rfl⟩ : ∃ c, b = c + 1 := ⟨b - 1, by omega⟩
        rw [core_step]
        have e2 : (c + 1 + 1 + 1) / 16 / 16 = (c + 1 + 1 + 1) / 256 := by omega
        have e3 : (c + 1 + 1 + 1) / 16 / 16 / 16 = (c + 1 + 1 + 1) / 4096 := by omega
        rw [if_pos (by omega), e3, e2]

theorem digitChar_eq_hexDigit (d : Nat) (h : d < 16) : Nat.digitChar d = hexDigit d := by
  interval_cases d <;> rfl

/-- The conversion `%04x` of a 16-bit value writes its four lowercase hexadecimal digits. -/
theorem zeroPad_hex (v : Nat) (h : v < 65536) :
    zeroPad 4 (Nat.toDigits 16 (v % 4294967296)) = (specHex4 v).data := by
  rw [Nat.mod_eq_of_lt (by omega), toDigits16 v h]
  have d0 := digitChar_eq_hexDigit (v % 16) (Nat.mod_lt _ (by decide))
  have d1 := digitChar_eq_hexDigit (v / 16 % 16) (Nat.mod_lt _ (by decide))
  have d2 := digitChar_eq_hexDigit (v / 256 % 16) (Nat.mod_lt _ (by decide))
  have d3 := digitChar_eq_hexDigit (v / 4096 % 16) (Nat.mod_lt _ (by decide))
  have z : hexDigit 0 = '0' := rfl
  unfold specHex4 zeroPad
  rw [d0, d1, d2, d3]
  by_cases h1 : v < 16
  · rw [if_pos h1, show v / 4096 % 16 = 0 by omega, show v / 256 % 16 = 0 by omega,
      show v / 16 % 16 = 0 by omega, z]
    rfl
  · rw [if_neg h1]
    by_cases h2 : v < 256
    · rw [if_pos h2, show v / 4096 % 16 = 0 by omega, show v / 256 % 16 = 0 by omega, z]
      rfl
    · rw [if_neg h2]
      by_cases h3 : v < 4096
      · rw [if_pos h3, show v / 4096 % 16 = 0 by omega, z]
        rfl
      · rw [if_neg h3]
        rfl

/-- The conversion `%u` of an 8-bit value writes it in decimal. -/
theorem toDigits_decimal (n : Nat) (h : n < 256) :
    Nat.toDigits 10 (n % 4294967296) = (Nat.repr n).data := by
  rw [Nat.mod_eq_of_lt (by omega)]
  rfl

theorem header_format :
    parseFormat ("%s %s@%" ++ PRIu8 ++ " %04" ++ PRIx16 ++ ":%04" ++ PRIx16 ++ " (%s)\n").data =
      [Directive.convS, Directive.lit ' ', Directive.convS, Directive.lit '@',
       Directive.convU, Directive.lit ' ', Directive.conv04x, Directive.lit ':',
       Directive.conv04x, Directive.lit ' ', Directive.lit '(', Directive.convS,
       Directive.lit ')', Directive.lit '\n'] := by
  decide

/-- The text of the first `printf` of `device_callback`. -/
theorem header_text (event location type : String) (iface vid pid : Nat)
    (hif : iface < 256) (hvid : vid < 65536) (hpid : pid < 65536) :
    printf ("%s %s@%" ++ PRIu8 ++ " %04" ++ PRIx16 ++ ":%04" ++ PRIx16 ++ " (%s)\n")
        [Arg.str event, Arg.str location, Arg.uint iface, Arg.uint vid, Arg.uint pid,
         Arg.str type] =
      event ++ " " ++ location ++ "@" ++ Nat.repr iface ++ " " ++ specHex4 vid ++ ":" ++
        specHex4 pid ++ " (" ++ type ++ ")\n" := by
  unfold printf
  rw [header_format]
  apply String.ext
  simp only [render, toDigits_decimal iface hif, zeroPad_hex vid hvid, zeroPad_hex pid hpid,
    String.data_append]
  simp

theorem detail_text (label value : String)
    (hfmt : parseFormat ("  - " ++ label ++ " %s\n").data =
      ("  - " ++ label ++ " ").data.map Directive.lit ++ [Directive.convS, Directive.lit '\n']) :
    PRINT_PROPERTY label (some value) = specDetail label (some value) := by
  unfold PRINT_PROPERTY specDetail printf
  rw [hfmt]
  have hlit : ∀ (cs : List Char) (ds : List Directive) (args : List Arg),
      render (cs.map Directive.lit ++ ds) args = cs ++ render ds args := by
    intro cs
    induction cs with
    | nil => intro ds args; rfl
    | cons c cs ih => intro ds args; simp [render, ih]
  dsimp only
  rw [hlit]
  congr 1
  apply String.ext
  simp [render, String.data_append]

theorem print_property_eq (label : String) (prop : Option String)
    (hfmt : parseFormat ("  - " ++ label ++ " %s\n").data =
      ("  - " ++ label ++ " ").data.map Directive.lit ++ [Directive.convS, Directive.lit '\n']) :
    PRINT_PROPERTY label prop = specDetail label prop := by
  cases prop with
  | none => rfl
  | some value => exact detail_text label value hfmt

/-! ### Newlines in the output of `device_callback` -/

theorem digitChar_ne_newline (d : Nat) (h : d < 16) : Nat.digitChar d ≠ '\n' := by
  interval_cases d <;> decide

theorem toDigitsCore_newlines (b : Nat) (hb0 : 0 < b) (hb : b ≤ 16) :
    ∀ (fuel n : Nat) (ds : List Char),
      (Nat.toDigitsCore b fuel n ds).count '\n' = ds.count '\n' := by
  intro fuel
  induction fuel with
  | zero => intro n ds; rfl
  | succ fuel ih =>
    intro n ds
    have hlt : n % b < 16 := Nat.lt_of_lt_of_le (Nat.mod_lt n hb0) hb
    have hd : (Nat.digitChar (n % b) :: ds).count '\n' = ds.count '\n' :=
      List.count_cons_of_ne (digitChar_ne_newline (n % b) hlt).symm ds
    simp only [Nat.toDigitsCore]
    split
    · exact hd
    · rw [ih, hd]

theorem toDigits_newlines (b n : Nat) (hb0 : 0 < b) (hb : b ≤ 16) :
    (Nat.toDigits b n).count '\n' = 0 := by
  unfold Nat.toDigits
  rw [toDigitsCore_newlines b hb0 hb]
  rfl

theorem zeroPad_newlines (w : Nat) (ds : List Char) :
    (zeroPad w ds).count '\n' = ds.count '\n' := by
  unfold zeroPad
  rw [List.count_append, List.count_replicate]
  simp

theorem newlines_append (a b : String) : newlines (a ++ b) = newlines a + newlines b := by
  unfold newlines
  rw [String.data_append, List.count_append]

/-- The first `printf` of `device_callback` writes its own newline and those of the strings
it is given. -/
theorem header_newlines (event location type : String) (iface vid pid : Nat) :
    newlines (printf ("%s %s@%" ++ PRIu8 ++ " %04" ++ PRIx16 ++ ":%04" ++ PRIx16 ++ " (%s)\n")
        [Arg.str event, Arg.str location, Arg.uint iface, Arg.uint vid, Arg.uint pid,
         Arg.str type]) =
      newlines event + newlines location + newlines type + 1 := by
  unfold printf newlines
  rw [header_format]
  simp only [render, List.count_append, List.count_cons, zeroPad_newlines,
    toDigits_newlines 10 _ (by decide) (by decide),
    toDigits_newlines 16 _ (by decide) (by decide), List.count_nil]
  simp
  omega

theorem detail_newlines (label : String) (prop : Option String) (hlabel : newlines label = 0) :
    linesPrinted (specDetail label prop) = (if prop.isSome then 1 else 0) + newlinesIn prop := by
  cases prop with
  | none => rfl
  | some value =>
    have h1 : newlines "  - " = 0 := by decide
    have h2 : newlines " " = 0 := by decide
    have h3 : newlines "\n" = 1 := by decide
    simp only [specDetail, linesPrinted, List.map_cons, List.map_nil, List.sum_cons,
      List.sum_nil, newlines_append, h1, h2, h3, hlabel, newlinesIn, Option.isSome_some,
      if_true]
    omega

theorem codesVisible_mem (X : Run) (win32 : Bool) (h : X.codesVisible win32 = true)
    (e : Event) (he : e ∈ X.events) (c : Int) (hc : e.retCode = some c) :
    win32 = true ∨ 0 ≤ c ∨ c % 256 ≠ 0 := by
  unfold Run.codesVisible at h
  have h' := List.all_eq_true.mp h e he
  rw [hc] at h'
  simp only [Bool.or_eq_true, decide_eq_true_eq] at h'
  tauto

/-- The sign of the value `main` returns: with every library code an `int` other than
`INT_MIN`, `r` is at most `0` at the `return`, `main` returns `-r`, which is `0` exactly when
the last wait ended with `sources[1].ready` set or with `hs_poll` returning `0`, and positive
exactly when a monitor call returned a negative code or the last wait returned a negative
code with `sources[1].ready` clear. -/
theorem final_r_sign (env : Env) (fuel : Nat) (x : Int)
    (hret : (main env fuel).r = some x) (hcodes : (main env fuel).codesAboveMin = true) :
    x ≤ 0 ∧ (main env fuel).status = some (-x) ∧ 0 ≤ -x ∧
    (-x = 0 ↔
      ∃ (pre post : List Event) (d : List Int) (c : Nat) (t : Int) (p : PollResult),
        (main env fuel).events = pre ++ Event.hs_poll d c t p :: post ∧
          (∀ e ∈ post, e.isRefresh = false ∧ e.isPoll = false) ∧
          (p.ready1 = true ∨ p.ret = 0)) ∧
    (0 < -x ↔
      ((∃ e ∈ (main env fuel).events, ∃ c : Int, e.monitorRet = some c ∧ c < 0) ∨
        ∃ (pre post : List Event) (d : List Int) (c : Nat) (t : Int) (p : PollResult),
          (main env fuel).events = pre ++ Event.hs_poll d c t p :: post ∧
            (∀ e ∈ post, e.isRefresh = false ∧ e.isPoll = false) ∧
            p.ret < 0 ∧ p.ready1 = false)) ∧
    (∀ env' : Env, SameUpToAborts env env' →
      (main env' fuel).status = (main env fuel).status) := by
  obtain ⟨hle, hzero, hneg⟩ := signOk_main env fuel x hret
  have hmin : INT_MIN < x := by
    by_cases h0 : x = 0
    · subst h0
      decide
    · rcases hneg (by omega) with ⟨e, he, hc⟩ | ⟨e, he, p, hp, hpx, -⟩
      · exact codesAboveMin_mem _ hcodes e he x (retCode_of_monitorRet e x hc)
      · rw [← hpx]
        exact codesAboveMin_mem _ hcodes e he p.ret (retCode_of_pollResult e p hp)
  refine ⟨hle, ?_, by omega, ?_, ?_, ?_⟩
  · simp only [Run.status, hret, Option.map_some', negInt_eq x hmin hle]
  · constructor
    · intro h0
      obtain ⟨e, he, p, hp, hstop⟩ := hzero (by omega)
      have hnot : ¬ (0 < p.ret ∧ p.ready1 = false) := by
        rintro ⟨h1, h2⟩
        rcases hstop with h | h
        · rw [h2] at h; cases h
        · omega
      obtain ⟨pre, post, d, c, t, hrun, hpost, -⟩ := last_poll_of_mem env fuel e p he hp hnot
      exact ⟨pre, post, d, c, t, p, hrun, hpost, hstop⟩
    · rintro ⟨pre, post, d, c, t, p, hrun, -, hstop⟩
      have hnot : ¬ (0 < p.ret ∧ p.ready1 = false) := by
        rintro ⟨h1, h2⟩
        rcases hstop with h | h
        · rw [h2] at h; cases h
        · omega
      obtain ⟨-, h2⟩ := pollOk_main env fuel pre post d c t p hrun hnot
      rw [afterLoop_r, hret, Option.some.injEq] at h2
      rcases hstop with h | h
      · rw [if_pos h] at h2; omega
      · split at h2 <;> omega
  · constructor
    · intro hpos
      rcases hneg (by omega) with ⟨e, he, hc⟩ | ⟨e, he, p, hp, hpx, hrd⟩
      · exact Or.inl ⟨e, he, x, hc, by omega⟩
      · have hnot : ¬ (0 < p.ret ∧ p.ready1 = false) := by
          rintro ⟨h1, -⟩
          omega
        obtain ⟨pre, post, d, c, t, hrun, hpost, -⟩ := last_poll_of_mem env fuel e p he hp hnot
        exact Or.inr ⟨pre, post, d, c, t, p, hrun, hpost, by omega, hrd⟩
    · rintro (⟨e, he, c, hc, hcneg⟩ | ⟨pre, post, d, c, t, p, hrun, -, hpneg, hrd⟩)
      · obtain ⟨pre, post, hrun⟩ := List.append_of_mem he
        obtain ⟨-, h2⟩ := faultOk_main env fuel pre post e c hrun hc hcneg
        rw [hret, Option.some.injEq] at h2
        omega
      · obtain ⟨-, h2⟩ := pollOk_main env fuel pre post d c t p hrun (by omega)
        rw [afterLoop_r, hret, Option.some.injEq, if_neg (by simp [hrd])] at h2
        omega
  · intro env' hsame
    unfold Run.status
    rw [main_r_congr env env' hsame fuel]

/-! ## The properties of `main` -/

/-- C1 (amended): in every run of `main`, when `hs_monitor_new`, `hs_monitor_start`,
`hs_monitor_list` or `hs_monitor_refresh` returns a negative code `r`, the only call made
after the failing one is `hs_monitor_free`. When `r` is not `INT_MIN`, `main` returns `-r`,
and the process exit status is `-r` under `_WIN32` and `-r` modulo 256 otherwise; so the exit
status is exactly `-r`, a positive value, whenever the build is `_WIN32` or `-r` is at most
255. -/
theorem monitor_fault_is_fatal (env : Env) (fuel : Nat) (pre post : List Event) (e : Event)
    (r : Int) (hrun : (main env fuel).events = pre ++ e :: post)
    (hcall : e.monitorRet = some r) (hneg : r < 0) :
    post = [Event.hs_monitor_free env.new_monitor] ∧
      (INT_MIN < r →
        (main env fuel).status = some (-r) ∧
        exitStatus env fuel = some (if env.win32 = true then -r else (-r) % 256) ∧
        ((env.win32 = true ∨ -255 ≤ r) → exitStatus env fuel = some (-r) ∧ 0 < -r)) := by
  obtain ⟨h1, h2⟩ := faultOk_main env fuel pre post e r hrun hcall hneg
  refine ⟨h1, ?_⟩
  intro hmin
  have hst : (main env fuel).status = some (-r) := by
    simp only [Run.status, h2, Option.map_some', negInt_eq r hmin (by omega)]
  have hex : exitStatus env fuel = some (if env.win32 = true then -r else (-r) % 256) := by
    unfold exitStatus processExitStatus
    rw [hst]
    rfl
  refine ⟨hst, hex, ?_⟩
  intro hvis
  refine ⟨?_, by omega⟩
  rw [hex]
  by_cases hw : env.win32 = true
  · rw [if_pos hw]
  · rw [if_neg hw]
    have hr : -255 ≤ r := by
      rcases hvis with h | h
      · exact absurd h hw
      · exact h
    congr 1
    omega

/-- A run in which `hs_monitor_refresh` fails with `-3` in the second pass: `hs_monitor_free`
follows at once and the process exit status is `3`. -/
theorem monitor_fault_is_fatal_witness :
    (main envRefreshFault 5).events =
        quietSetup ++ [Event.hs_monitor_refresh (some 1) 0,
         Event.hs_poll [3, 0] 2 (-1) ⟨1, true, false⟩] ++
        Event.hs_monitor_refresh (some 1) (-3) :: [Event.hs_monitor_free (some 1)] ∧
      exitStatus envRefreshFault 5 = some 3 := by
  have h := monitor_fault_is_fatal envRefreshFault 5
    (quietSetup ++ [Event.hs_monitor_refresh (some 1) 0,
      Event.hs_poll [3, 0] 2 (-1) ⟨1, true, false⟩])
    [Event.hs_monitor_free (some 1)] (Event.hs_monitor_refresh (some 1) (-3)) (-3)
    (by decide) rfl (by decide)
  exact ⟨by decide, ((h.2 (by decide)).2.2 (Or.inr (by decide))).1⟩

/-- C1 as stated fails in three ways. Without `_WIN32`, `hs_monitor_new` returns `-300` and
the process exit status is `44`, not `300`; it returns `-256` and the exit status is `0`, not
a positive value. Under `_WIN32`, it returns `INT_MIN`, whose negation exceeds `INT_MAX`, and
the exit status is `INT_MIN` again. -/
theorem monitor_fault_exit_status_counterexample :
    (envNew300.new_ret = -300 ∧
      (main envNew300 0).events = [Event.hs_monitor_new (-300), Event.hs_monitor_free none] ∧
      exitStatus envNew300 0 = some 44) ∧
    (envNew256.new_ret = -256 ∧
      (main envNew256 0).events = [Event.hs_monitor_new (-256), Event.hs_monitor_free none] ∧
      exitStatus envNew256 0 = some 0) ∧
    (envNewMinWin.new_ret < 0 ∧ INT_MAX < -envNewMinWin.new_ret ∧
      (main envNewMinWin 0).events =
        [Event.hs_monitor_new (-2147483648), Event.hs_monitor_free none] ∧
      exitStatus envNewMinWin 0 = some (-2147483648)) := by
  decide

/-- C2 (amended): in every run of `main`, when `hs_poll` returns a negative code `e` other
than `INT_MIN` and `sources[1].ready` is clear at that moment, the loop ends (the only call
that follows is `hs_monitor_free`), `main` returns `-e`, and the process exit status is `-e`
under `_WIN32` and `-e` modulo 256 otherwise; so the exit status is exactly `-e`, non-zero,
whenever the build is `_WIN32` or `-e` is at most 255. -/
theorem poll_fault_is_fatal (env : Env) (fuel : Nat) (pre post : List Event) (d : List Int)
    (c : Nat) (t : Int) (p : PollResult)
    (hrun : (main env fuel).events = pre ++ Event.hs_poll d c t p :: post)
    (hneg : p.ret < 0) (hmin : INT_MIN < p.ret) (hready : p.ready1 = false) :
    post = [Event.hs_monitor_free env.new_monitor] ∧
      (main env fuel).status = some (-p.ret) ∧
      exitStatus env fuel = some (if env.win32 = true then -p.ret else (-p.ret) % 256) ∧
      ((env.win32 = true ∨ -255 ≤ p.ret) →
        exitStatus env fuel = some (-p.ret) ∧ 0 < -p.ret) := by
  obtain ⟨h1, h2⟩ := pollOk_main env fuel pre post d c t p hrun (by omega)
  rw [afterLoop_events] at h1
  rw [afterLoop_r] at h2
  simp only [hready, Bool.false_eq_true, false_and, if_false, List.nil_append] at h1 h2
  have hst : (main env fuel).status = some (-p.ret) := by
    simp only [Run.status, h2, Option.map_some', negInt_eq p.ret hmin (by omega)]
  have hex : exitStatus env fuel =
      some (if env.win32 = true then -p.ret else (-p.ret) % 256) := by
    unfold exitStatus processExitStatus
    rw [hst]
    rfl
  refine ⟨h1, hst, hex, ?_⟩
  intro hvis
  refine ⟨?_, by omega⟩
  rw [hex]
  by_cases hw : env.win32 = true
  · rw [if_pos hw]
  · rw [if_neg hw]
    have hr : -255 ≤ p.ret := by
      rcases hvis with h | h
      · exact absurd h hw
      · exact h
    congr 1
    omega

/-- A run in which the first `hs_poll` fails with `-2` and no source is ready: the process
exit status is `2`. -/
theorem poll_fault_is_fatal_witness :
    (main envPollFault 1).events =
        quietSetup ++ [Event.hs_monitor_refresh (some 1) 0] ++
        Event.hs_poll [3, 0] 2 (-1) ⟨-2, false, false⟩ :: [Event.hs_monitor_free (some 1)] ∧
      exitStatus envPollFault 1 = some 2 := by
  have h := poll_fault_is_fatal envPollFault 1
    (quietSetup ++ [Event.hs_monitor_refresh (some 1) 0])
    [Event.hs_monitor_free (some 1)] [3, 0] 2 (-1) ⟨-2, false, false⟩
    (by decide) (by decide) (by decide) rfl
  exact ⟨by decide, (h.2.2.2 (Or.inr (by decide))).1⟩

/-- C2 as stated fails in three ways. When `hs_poll` returns `-2` while `sources[1].ready` is
set, the statement after the loop overwrites `r` and the process exit status is `0`. Without
`_WIN32`, when `hs_poll` returns `-512` with the `ready` fields clear, the exit status is `0`
as well. Under `_WIN32`, when `hs_poll` returns `INT_MIN`, the exit status is `INT_MIN`, not
its negation. -/
theorem poll_fault_counterexample :
    ((main envPollFaultReady 1).events =
        quietSetup ++ [Event.hs_monitor_refresh (some 1) 0,
         Event.hs_poll [3, 0] 2 (-1) ⟨-2, false, true⟩, Event.tcflush,
         Event.hs_monitor_free (some 1)] ∧
      exitStatus envPollFaultReady 1 = some 0) ∧
    ((main envPoll512 1).events =
        quietSetup ++ [Event.hs_monitor_refresh (some 1) 0,
         Event.hs_poll [3, 0] 2 (-1) ⟨-512, false, false⟩,
         Event.hs_monitor_free (some 1)] ∧
      exitStatus envPoll512 1 = some 0) ∧
    ((main envPollMinWin 1).events =
        quietSetup ++ [Event.hs_monitor_refresh (some 1) 0,
         Event.hs_poll [3, 0] 2 (-1) ⟨-2147483648, false, false⟩,
         Event.hs_monitor_free (some 1)] ∧
      exitStatus envPollMinWin 1 = some (-2147483648)) := by
  decide

/-- C3: in every run of `main`, when an `hs_poll` returns with `sources[1].ready` set,
whatever its return value and whatever `sources[0].ready`, the loop stops: the calls that
follow are `tcflush` (without `_WIN32`) and `hs_monitor_free`, none of them an
`hs_monitor_refresh` or an `hs_poll`, and `main` returns `0`. -/
theorem console_ready_stops_loop (env : Env) (fuel : Nat) (pre post : List Event)
    (d : List Int) (c : Nat) (t : Int) (p : PollResult)
    (hrun : (main env fuel).events = pre ++ Event.hs_poll d c t p :: post)
    (hready : p.ready1 = true) :
    post = (if env.win32 = true then [] else [Event.tcflush]) ++
        [Event.hs_monitor_free env.new_monitor] ∧
      (∀ e ∈ post, e.isRefresh = false ∧ e.isPoll = false) ∧
      (main env fuel).status = some 0 := by
  obtain ⟨h1, h2⟩ := pollOk_main env fuel pre post d c t p hrun (by simp [hready])
  rw [afterLoop_r] at h2
  have hmem : ∀ e ∈ post, e.isRefresh = false ∧ e.isPoll = false := by
    intro e he
    rw [h1] at he
    rcases mem_afterLoop _ _ _ _ he with rfl | rfl <;> exact ⟨rfl, rfl⟩
  refine ⟨?_, hmem, ?_⟩
  · rw [h1, afterLoop_events]
    cases env.win32 <;> simp [hready]
  · simp only [Run.status, h2, hready, if_true, Option.map_some']
    rfl

/-- A run in which the second `hs_poll` finds both the monitor and the console ready: the
loop stops there and the exit status is `0`. -/
theorem console_ready_stops_loop_witness :
    (main envKeyPress 9).events =
        quietSetup ++ [Event.hs_monitor_refresh (some 1) 0,
         Event.hs_poll [3, 0] 2 (-1) ⟨1, true, false⟩, Event.hs_monitor_refresh (some 1) 0] ++
        Event.hs_poll [3, 0] 2 (-1) ⟨2, true, true⟩ ::
          [Event.tcflush, Event.hs_monitor_free (some 1)] ∧
      (main envKeyPress 9).status = some 0 := by
  have h := console_ready_stops_loop envKeyPress 9
    (quietSetup ++ [Event.hs_monitor_refresh (some 1) 0,
      Event.hs_poll [3, 0] 2 (-1) ⟨1, true, false⟩, Event.hs_monitor_refresh (some 1) 0])
    [Event.tcflush, Event.hs_monitor_free (some 1)] [3, 0] 2 (-1) ⟨2, true, true⟩
    (by decide) rfl
  exact ⟨by decide, h.2.2⟩

/-- C4: in every run of `main`, after an `hs_poll` has returned, `hs_monitor_refresh` is
called again exactly when the return value is positive and `sources[1].ready` is clear: if so,
the next call of the run (observed one pass longer) is `hs_monitor_refresh`; if not, no
`hs_monitor_refresh` follows at all. When `hs_poll` returns the number of ready sources
among the two, that condition says that `sources[0]` is ready and `sources[1]` is not. -/
theorem refresh_again_iff_loop_condition (env : Env) (fuel : Nat) (pre post : List Event)
    (d : List Int) (c : Nat) (t : Int) (p : PollResult)
    (hrun : (main env fuel).events = pre ++ Event.hs_poll d c t p :: post) :
    ((0 < p.ret ∧ p.ready1 = false) →
        ∃ (k : Nat) (rest : List Event),
          (main env (fuel + 1)).events = pre ++ Event.hs_poll d c t p ::
            Event.hs_monitor_refresh env.new_monitor (env.refresh_ret k) :: rest) ∧
      (¬ (0 < p.ret ∧ p.ready1 = false) → ∀ e ∈ post, e.isRefresh = false) ∧
      (p.ret = p.readyCount →
        ((0 < p.ret ∧ p.ready1 = false) ↔ (p.ready0 = true ∧ p.ready1 = false))) := by
  refine ⟨fun hp => nextOk_main env fuel pre post d c t p hrun hp, ?_, ?_⟩
  · intro hp e he
    obtain ⟨h1, -⟩ := pollOk_main env fuel pre post d c t p hrun hp
    rw [h1] at he
    rcases mem_afterLoop _ _ _ _ he with rfl | rfl <;> rfl
  · intro hcount
    rw [hcount]
    unfold PollResult.readyCount
    cases p.ready0 <;> cases p.ready1 <;> simp

/-- A run observed for one pass, whose `hs_poll` reports the monitor alone ready: observed for
two passes, the next call is `hs_monitor_refresh`. -/
theorem refresh_again_iff_loop_condition_witness :
    ∃ (k : Nat) (rest : List Event),
      (main envKeyPress 2).events =
        (quietSetup ++ [Event.hs_monitor_refresh (some 1) 0]) ++
          Event.hs_poll [3, 0] 2 (-1) ⟨1, true, false⟩ ::
            Event.hs_monitor_refresh (some 1) (envKeyPress.refresh_ret k) :: rest :=
  (refresh_again_iff_loop_condition envKeyPress 1
    (quietSetup ++ [Event.hs_monitor_refresh (some 1) 0]) [] [3, 0] 2 (-1) ⟨1, true, false⟩
    (by decide)).1 (by decide)

/-- C5 (amended): when `hs_monitor_refresh` returns a positive (abort) value, `main` does not
stop: the next call is the `hs_poll` wait on the two sources, as after any non-negative
return, and the value does not reach the exit status, which is what it would be had
`hs_monitor_refresh` returned any other non-negative value there. -/
theorem refresh_abort_does_not_stop_loop (env : Env) (fuel i : Nat)
    (hpos : 0 < env.refresh_ret i) :
    (∀ (pre post : List Event) (m : Option Nat),
        (main env fuel).events = pre ++ Event.hs_monitor_refresh m (env.refresh_ret i) :: post →
          ∃ (p : PollResult) (rest : List Event),
            post = Event.hs_poll [env.descriptor, env.stdin_desc] 2 (-1) p :: rest) ∧
      (∀ v : Int, 0 ≤ v →
        (main { env with refresh_ret := Function.update env.refresh_ret i v } fuel).status =
          (main env fuel).status) := by
  constructor
  · intro pre post m hrun
    exact refreshOk_main env fuel pre post m _ hrun (by omega)
  · intro v hv
    unfold Run.status
    rw [main_r_congr env { env with refresh_ret := Function.update env.refresh_ret i v }]
    refine ⟨rfl, rfl, rfl, rfl, rfl, rfl, rfl, Or.inl rfl, ?_⟩
    intro k
    by_cases hk : k = i
    · subst hk
      right
      simp only [Function.update_same]
      omega
    · left
      simp only [ne_eq, hk, not_false_eq_true, Function.update_noteq]

/-- A run in which the first `hs_monitor_refresh` returns `7`: `hs_poll` follows, and the exit
status is the one of the run in which it returned `0`. -/
theorem refresh_abort_does_not_stop_loop_witness :
    (∀ (pre post : List Event) (m : Option Nat),
        (main envAbort 1).events = pre ++ Event.hs_monitor_refresh m 7 :: post →
          ∃ (p : PollResult) (rest : List Event),
            post = Event.hs_poll [3, 0] 2 (-1) p :: rest) ∧
      (main { envAbort with refresh_ret := Function.update envAbort.refresh_ret 0 0 } 1).status =
        (main envAbort 1).status :=
  ⟨(refresh_abort_does_not_stop_loop envAbort 1 0 (by decide)).1,
   (refresh_abort_does_not_stop_loop envAbort 1 0 (by decide)).2 0 (by decide)⟩

/-- C5 as stated fails: the first `hs_monitor_refresh` returns the abort value `7`, the loop
goes on to `hs_poll`, and `main` returns `0` once the console is ready. -/
theorem refresh_abort_counterexample :
    (main envAbort 1).events =
        quietSetup ++ [Event.hs_monitor_refresh (some 1) 7,
          Event.hs_poll [3, 0] 2 (-1) ⟨1, false, true⟩, Event.tcflush,
          Event.hs_monitor_free (some 1)] ∧
      (main envAbort 1).status = some 0 := by
  decide

/-- C6: in every run of `main`, `hs_monitor_free` is not called while the loop is going, and
once `main` has returned it has been called exactly once, as the last call of the run, with
whatever `hs_monitor_new` left in `monitor` (`NULL` included); observing the run for longer
adds no call. `main` returns as soon as `hs_monitor_new`, `hs_monitor_start` or
`hs_monitor_list` fails or some pass leaves the loop. -/
theorem free_called_once_and_last (env : Env) (fuel : Nat) :
    (((main env fuel).r = none ∧ ∀ e ∈ (main env fuel).events, e.isFree = false) ∨
      ((main env fuel).r ≠ none ∧ (∀ k : Nat, main env (fuel + k) = main env fuel) ∧
        ∃ init : List Event,
          (main env fuel).events = init ++ [Event.hs_monitor_free env.new_monitor] ∧
            ∀ e ∈ init, e.isFree = false)) ∧
    ((main env fuel).r ≠ none ↔
      (env.new_ret < 0 ∨ env.start_ret < 0 ∨ env.list_ret < 0 ∨
        ∃ j, j < fuel ∧ env.stopsAt j = true)) := by
  refine ⟨?_, main_done_iff env fuel⟩
  rcases freeOk_main env fuel with h | ⟨h1, h2⟩
  · exact Or.inl h
  · exact Or.inr ⟨h1, main_stable env fuel h1, h2⟩

/-- C7: in every run of `main` in which `hs_monitor_new`, `hs_monitor_start` and
`hs_monitor_list` succeed, the calls are new, start, list (then the descriptor query and the
banner), followed by complete passes of the loop, each an `hs_monitor_refresh` that did not
fail and then an `hs_poll`, and finally nothing (loop still going), a failed refresh with
`hs_monitor_free`, or the statements after the loop. The first call of the loop is an
`hs_monitor_refresh`; every `hs_poll` comes right after an `hs_monitor_refresh` that did not
fail, and is made on exactly two sources, the monitor descriptor and the console, with
timeout `-1`. -/
theorem setup_then_refresh_wait_alternate (env : Env) (fuel : Nat)
    (hnew : 0 ≤ env.new_ret) (hstart : 0 ≤ env.start_ret) (hlist : 0 ≤ env.list_ret) :
    (∃ (n : Nat) (tail : List Event),
      n ≤ fuel ∧
      (main env fuel).events =
        [Event.hs_monitor_new env.new_ret,
         Event.hs_monitor_start env.new_monitor env.start_ret,
         Event.hs_monitor_list env.new_monitor env.list_ret,
         Event.hs_monitor_get_descriptor env.new_monitor env.descriptor,
         Event.printf banner] ++ passes env env.new_monitor n 0 ++ tail ∧
      (∀ j, j < n → 0 ≤ env.refresh_ret j) ∧
      ((tail = [] ∧ n = fuel) ∨
        (tail = [Event.hs_monitor_refresh env.new_monitor (env.refresh_ret n),
            Event.hs_monitor_free env.new_monitor] ∧ env.refresh_ret n < 0) ∨
        (1 ≤ n ∧ tail = (afterLoop env env.new_monitor (env.poll (n - 1))).events))) ∧
    (0 < fuel → ∃ rest : List Event,
      (main env fuel).events =
        [Event.hs_monitor_new env.new_ret,
         Event.hs_monitor_start env.new_monitor env.start_ret,
         Event.hs_monitor_list env.new_monitor env.list_ret,
         Event.hs_monitor_get_descriptor env.new_monitor env.descriptor,
         Event.printf banner] ++
          Event.hs_monitor_refresh env.new_monitor (env.refresh_ret 0) :: rest) ∧
    (∀ (pre post : List Event) (d : List Int) (c : Nat) (t : Int) (p : PollResult),
      (main env fuel).events = pre ++ Event.hs_poll d c t p :: post →
        d = [env.descriptor, env.stdin_desc] ∧ c = 2 ∧ t = -1 ∧
          ∃ (pre' : List Event) (m : Option Nat) (r : Int),
            pre = pre' ++ [Event.hs_monitor_refresh m r] ∧ 0 ≤ r) := by
  have h1 : ¬ env.new_ret < 0 := by omega
  have h2 : ¬ env.start_ret < 0 := by omega
  have h3 : ¬ env.list_ret < 0 := by omega
  have hmain : (main env fuel).events =
      [Event.hs_monitor_new env.new_ret,
       Event.hs_monitor_start env.new_monitor env.start_ret,
       Event.hs_monitor_list env.new_monitor env.list_ret,
       Event.hs_monitor_get_descriptor env.new_monitor env.descriptor,
       Event.printf banner] ++ (loop env env.new_monitor fuel 0).events := by
    unfold main
    simp [h1, h2, h3]
  refine ⟨?_, ?_, precOk_main env fuel⟩
  · obtain ⟨n, tail, hn, hev, hok, htail⟩ := loop_shape env env.new_monitor fuel 0
    refine ⟨n, tail, hn, ?_, ?_, ?_⟩
    · rw [hmain, hev, List.append_assoc]
    · intro j hj
      simpa using hok j hj
    · simpa using htail
  · intro hfuel
    obtain ⟨k, rfl⟩ : ∃ k, fuel = k + 1 := ⟨fuel - 1, by omega⟩
    rw [hmain, loop_succ]
    exact ⟨_, rfl⟩

/-- A run of `quietEnv` observed for two passes: new, start, list, then refresh, wait,
refresh, wait. -/
theorem setup_then_refresh_wait_alternate_witness :
    (main quietEnv 2).events =
        quietSetup ++ [Event.hs_monitor_refresh (some 1) 0,
          Event.hs_poll [3, 0] 2 (-1) ⟨1, true, false⟩, Event.hs_monitor_refresh (some 1) 0,
          Event.hs_poll [3, 0] 2 (-1) ⟨1, true, false⟩] ∧
      ∃ rest : List Event,
        (main quietEnv 2).events =
          [Event.hs_monitor_new quietEnv.new_ret,
           Event.hs_monitor_start quietEnv.new_monitor quietEnv.start_ret,
           Event.hs_monitor_list quietEnv.new_monitor quietEnv.list_ret,
           Event.hs_monitor_get_descriptor quietEnv.new_monitor quietEnv.descriptor,
           Event.printf banner] ++
            Event.hs_monitor_refresh quietEnv.new_monitor (quietEnv.refresh_ret 0) :: rest :=
  ⟨by decide,
   (setup_then_refresh_wait_alternate quietEnv 2 (by decide) (by decide) (by decide)).2.1
     (by decide)⟩

/-- C8: for every device, `device_callback` returns `0`, and (with `interface_number` a
`uint8_t`, `vid` and `pid` `uint16_t`) its first `printf` writes the line
`<event> <location>@<interface_number> <vid>:<pid> (<type>)`, where the event is `add` for
Online, `remove` for Disconnected and `?` otherwise, the type is `hid` for HID, `serial` for
Serial and `?` otherwise, the interface number is in decimal, and `vid` and `pid` are their
four lowercase hexadecimal digits. -/
theorem device_callback_header (dev : hs_device) :
    (device_callback dev).2 = 0 ∧
      (dev.interface_number < 256 → dev.vid < 65536 → dev.pid < 65536 →
        (device_callback dev).1.head? =
          some ((if dev.status = hs_device_status.HS_DEVICE_STATUS_ONLINE then "add"
              else if dev.status = hs_device_status.HS_DEVICE_STATUS_DISCONNECTED then "remove"
              else "?") ++ " " ++ dev.location ++ "@" ++ Nat.repr dev.interface_number ++
            " " ++ specHex4 dev.vid ++ ":" ++ specHex4 dev.pid ++ " (" ++
            (if dev.type = hs_device_type.HS_DEVICE_TYPE_HID then "hid"
              else if dev.type = hs_device_type.HS_DEVICE_TYPE_SERIAL then "serial"
              else "?") ++ ")\n")) := by
  refine ⟨rfl, ?_⟩
  intro hif hvid hpid
  unfold device_callback
  simp only [List.head?_cons, Option.some.injEq]
  rw [header_text _ _ _ _ _ _ hif hvid hpid]
  cases dev.status <;> cases dev.type <;> simp

/-- The devices of the end-to-end scenario: attached, the line is
`add 1-1@0 1234:5678 (hid)`; detached, `remove 1-1@0 1234:5678 (hid)`. A serial device of
unknown status on interface 12 with vendor id `0xab` gives `? 1-1@12 00ab:5678 (serial)`. -/
theorem device_callback_header_witness :
    (device_callback exampleDevice).1.head? = some "add 1-1@0 1234:5678 (hid)\n" ∧
      (device_callback exampleDeviceRemoved).1.head? = some "remove 1-1@0 1234:5678 (hid)\n" ∧
      (device_callback exampleSerial).1.head? = some "? 1-1@12 00ab:5678 (serial)\n" ∧
      (device_callback exampleDevice).2 = 0 := by
  have h1 := (device_callback_header exampleDevice).2 (by decide) (by decide) (by decide)
  have h2 := (device_callback_header exampleDeviceRemoved).2 (by decide) (by decide) (by decide)
  have h3 := (device_callback_header exampleSerial).2 (by decide) (by decide) (by decide)
  exact ⟨h1.trans (by decide), h2.trans (by decide), h3.trans (by decide),
    (device_callback_header exampleDevice).1⟩

/-- C9 (amended): for every device, after the header text `device_callback` makes one
`printf` for each of path, manufacturer string, product string and serial number string that
is not `NULL`, in that order, each writing the label, the value and a newline; the number of
`printf` calls is one plus the number of these properties that are present. The number of
lines printed is that number plus the number of newline characters held by the location and
by the present values; so it is one plus the number of present properties whenever these
strings hold no newline, and with all four absent the header text is the only one. -/
theorem device_callback_details (dev : hs_device) :
    (device_callback dev).1.tail =
        specDetail "device node:  " dev.path ++
          specDetail "manufacturer: " dev.manufacturer_string ++
          specDetail "product:      " dev.product_string ++
          specDetail "serial number:" dev.serial_number_string ∧
      (device_callback dev).1.length = 1 + presentCount dev ∧
      (dev.path = none ∧ dev.manufacturer_string = none ∧ dev.product_string = none ∧
          dev.serial_number_string = none →
        ∃ header : String, (device_callback dev).1 = [header]) ∧
      linesPrinted (device_callback dev).1 =
        1 + presentCount dev +
          (newlines dev.location + newlinesIn dev.path + newlinesIn dev.manufacturer_string +
            newlinesIn dev.product_string + newlinesIn dev.serial_number_string) ∧
      (newlines dev.location = 0 ∧ newlinesIn dev.path = 0 ∧
          newlinesIn dev.manufacturer_string = 0 ∧ newlinesIn dev.product_string = 0 ∧
          newlinesIn dev.serial_number_string = 0 →
        linesPrinted (device_callback dev).1 = 1 + presentCount dev) := by
  have h1 := print_property_eq "device node:  " dev.path (by decide)
  have h2 := print_property_eq "manufacturer: " dev.manufacturer_string (by decide)
  have h3 := print_property_eq "product:      " dev.product_string (by decide)
  have h4 := print_property_eq "serial number:" dev.serial_number_string (by decide)
  have hlines : linesPrinted (device_callback dev).1 =
      1 + presentCount dev +
        (newlines dev.location + newlinesIn dev.path + newlinesIn dev.manufacturer_string +
          newlinesIn dev.product_string + newlinesIn dev.serial_number_string) := by
    have n1 := detail_newlines "device node:  " dev.path (by decide)
    have n2 := detail_newlines "manufacturer: " dev.manufacturer_string (by decide)
    have n3 := detail_newlines "product:      " dev.product_string (by decide)
    have n4 := detail_newlines "serial number:" dev.serial_number_string (by decide)
    unfold linesPrinted at n1 n2 n3 n4 ⊢
    unfold device_callback
    simp only [h1, h2, h3, h4, List.map_cons, List.map_append, List.sum_cons, List.sum_append,
      n1, n2, n3, n4, header_newlines, presentCount]
    have e1 : newlines (match dev.status with
        | hs_device_status.HS_DEVICE_STATUS_DISCONNECTED => "remove"
        | hs_device_status.HS_DEVICE_STATUS_ONLINE => "add"
        | _ => "?") = 0 := by
      cases dev.status <;> rfl
    have e2 : newlines (match dev.type with
        | hs_device_type.HS_DEVICE_TYPE_HID => "hid"
        | hs_device_type.HS_DEVICE_TYPE_SERIAL => "serial"
        | _ => "?") = 0 := by
      cases dev.type <;> rfl
    rw [e1, e2]
    omega
  refine ⟨?_, ?_, ?_, hlines, ?_⟩
  · unfold device_callback
    simp only [h1, h2, h3, h4, List.tail_cons]
  · unfold device_callback
    simp only [h1, h2, h3, h4, List.length_cons, List.length_append]
    unfold presentCount specDetail
    cases dev.path <;> cases dev.manufacturer_string <;> cases dev.product_string <;>
      cases dev.serial_number_string <;> rfl
  · rintro ⟨e1, e2, e3, e4⟩
    unfold device_callback
    rw [e1, e2, e3, e4]
    exact ⟨_, rfl⟩
  · rintro ⟨z0, z1, z2, z3, z4⟩
    rw [hlines, z0, z1, z2, z3, z4]
    rfl

/-- A device with a node path and a product string: three texts, the header and the two
detail lines, the value printed as it is, and three lines on the output. -/
theorem device_callback_details_witness :
    (device_callback exampleSerial).1 =
        ["? 1-1@12 00ab:5678 (serial)\n", "  - device node:   /dev/ttyACM0\n",
         "  - product:       100% serial\n"] ∧
      (device_callback exampleSerial).1.length = 1 + 2 ∧
      linesPrinted (device_callback exampleSerial).1 = 1 + 2 :=
  ⟨by decide, (device_callback_details exampleSerial).2.1,
   (device_callback_details exampleSerial).2.2.2.2 (by decide)⟩

/-- C9 as stated fails for a value that holds a newline: with the manufacturer string
`Acme\nCorp` as the only present property, `device_callback` makes two `printf` calls and
three lines appear on the output, not two. -/
theorem device_callback_lines_counterexample :
    (device_callback exampleTwoLines).1 =
        ["add 1-1@0 1234:5678 (hid)\n", "  - manufacturer:  Acme\nCorp\n"] ∧
      presentCount exampleTwoLines = 1 ∧
      linesPrinted (device_callback exampleTwoLines).1 = 3 := by
  decide

end MonitorDevices
